import Mathlib

/-!
# plr::Image : mip layout, slice access, texel conversion and format dispatch

A shallow embedding of `src/all/plr/Image.cpp`, and of `Rand::get<sint32>` of
`src/all/apt/rand.h`.

Conventions of the embedding.

* `uint` is a 32-bit unsigned integer: every arithmetic result that the source
  stores in a `uint` is wrapped with `u32`.
* `PLR_ASSERT` is a debugging aid that is compiled out of release builds (every
  asserting accessor repeats the test in an explicit `if`), so assertions are
  not modelled.
* Memory is a flat map from byte addresses to byte values.  A pointer is an
  address, the null pointer is `none`.
* The declarations of `plr/Image.h` and `plr/def.h` (enumerations, the
  constant `kMaxMipmapCount`, the macros `PLR_MIN`/`PLR_MAX`) are not part of
  the sources at hand.  The constant, the floating point logarithm, the
  allocator and the float conversions are fields of `Env`.
-/

namespace plr

/-! ## Machine integers and helper macros -/

/-- Wrap a natural number to the range of `uint` (32 bits). -/
def u32 (n : Nat) : Nat := n % 2 ^ 32

/-- Modelled from the spec: the macro `PLR_MIN` of the missing `plr/def.h`, the
smaller of its two arguments. -/
def PLR_MIN (a b : Nat) : Nat := if a < b then a else b

/-- Modelled from the spec: the macro `PLR_MAX` of the missing `plr/def.h`, the
larger of its two arguments. -/
def PLR_MAX (a b : Nat) : Nat := if a < b then b else a

/-! ## Enumerations (declared in the missing `plr/Image.h`) -/

/-- Modelled from the spec: `Image::DataType`, the scalar storage kinds
uint8, uint16, uint32, sint8, sint16, sint32, float32 and invalid. -/
inductive DataType where
  | kInvalid
  | kUint8
  | kUint16
  | kUint32
  | kSint8
  | kSint16
  | kSint32
  | kFloat32
  deriving DecidableEq, Repr

/-- Modelled from the spec: `Image::Layout`, the component arrangements
R, RG, RGB, RGBA and invalid. -/
inductive Layout where
  | kInvalid
  | kR
  | kRG
  | kRGB
  | kRGBA
  deriving DecidableEq, Repr

/-- Modelled from the spec: `Image::CompressionType`, `kNone` or one of the
block-compressed variants (identified here by a number). -/
inductive CompressionType where
  | kNone
  | kBlock (id : Nat)
  deriving DecidableEq, Repr

/-- Modelled from the spec: `Image::Type`, the dimensionality kinds 1D, 2D, 3D,
their array variants, and invalid. -/
inductive ImageType where
  | kInvalid
  | k1d
  | k2d
  | k3d
  | k1dArray
  | k2dArray
  | k3dArray
  deriving DecidableEq, Repr

/-- Modelled from the spec: `Image::ErrorState`, the error taxonomy. -/
inductive ErrorState where
  | kOk
  | kFileNotFound
  | kFileIoError
  | kFileFormatUnsupported
  | kBadAlloc
  deriving DecidableEq, Repr

/-! ## Environment -/

/-- The parts of the platform and of the missing header that the code depends on. -/
structure Env where
  /-- The constant `Image::kMaxMipmapCount`: the length of the two mip tables. -/
  kMaxMipmapCount : Nat
  /-- The floating point expression `(uint)(log((double)x) * rlog2)`. -/
  log2u : Nat → Nat
  /-- The expression `new char[n]`: the address of a fresh block, or null. -/
  newChars : Nat → Option Nat
  /-- The specialisations of `Convert` with a `float` source or destination,
  acting on the 32-bit patterns of the floats. -/
  convertFloat : DataType → DataType → Nat → Nat

/-- The integer base-2 logarithm by repeated halving, with a bound on the rounds. -/
def ilog2Aux : Nat → Nat → Nat
  | 0, _ => 0
  | fuel + 1, n => if 2 ≤ n then ilog2Aux fuel (n / 2) + 1 else 0

/-- The exact integer base-2 logarithm (0 for 0 and 1). -/
def ilog2 (n : Nat) : Nat := ilog2Aux n n

/-- A concrete environment: 16 table entries, the exact integer logarithm, an
allocator that always succeeds at address 4096. -/
def Env.sample : Env :=
  { kMaxMipmapCount := 16
    log2u := ilog2
    newChars := fun _ => some 4096
    convertFloat := fun _ _ v => v }

/-! ## Registries -/

/-- `Image::GetDataTypeSize`. -/
def GetDataTypeSize (_type : DataType) : Nat :=
  match _type with
  | .kUint8 | .kSint8 => 1
  | .kUint16 | .kSint16 => 2
  | .kUint32 | .kSint32 | .kFloat32 => 4
  | .kInvalid => 0

/-- `Image::GetComponentCount`. -/
def GetComponentCount (_layout : Layout) : Nat :=
  match _layout with
  | .kR => 1
  | .kRG => 2
  | .kRGB => 3
  | .kRGBA => 4
  | .kInvalid => 0

/-! ## Texel conversion engine -/

/-- The constant `UINT8_MAX`. -/
def UINT8_MAX : Nat := 255

/-- The constant `UINT16_MAX`. -/
def UINT16_MAX : Nat := 65535

/-- The constant `UINT32_MAX`. -/
def UINT32_MAX : Nat := 4294967295

/-- The specialisations of `Convert<tSrc, tDst>`, on the values of the unsigned types
and on the bit patterns of `float`.  The result is the value stored in the returned
`tDst`.  The six specialisations between `float` and an unsigned type are taken from
the environment; the primary template `tDst(_src)` (last line) is instantiated by no
caller. -/
def Convert (env : Env) (tSrc tDst : DataType) (_src : Nat) : Nat :=
  match tSrc, tDst with
  | .kUint8, .kUint8 => _src
  | .kUint8, .kUint16 => (_src * (UINT16_MAX / UINT8_MAX)) % 2 ^ 16
  | .kUint8, .kUint32 => (_src * (UINT32_MAX / UINT8_MAX)) % 2 ^ 32
  | .kUint16, .kUint8 => (_src / UINT8_MAX) % 2 ^ 8
  | .kUint16, .kUint16 => _src
  | .kUint16, .kUint32 => (_src * (UINT32_MAX / UINT16_MAX)) % 2 ^ 32
  | .kUint32, .kUint8 => (_src / UINT8_MAX) % 2 ^ 8
  | .kUint32, .kUint16 => (_src / UINT16_MAX) % 2 ^ 16
  | .kUint32, .kUint32 => _src
  | .kFloat32, .kFloat32 => _src
  | .kUint8, .kFloat32 => env.convertFloat .kUint8 .kFloat32 _src
  | .kUint16, .kFloat32 => env.convertFloat .kUint16 .kFloat32 _src
  | .kUint32, .kFloat32 => env.convertFloat .kUint32 .kFloat32 _src
  | .kFloat32, .kUint8 => env.convertFloat .kFloat32 .kUint8 _src
  | .kFloat32, .kUint16 => env.convertFloat .kFloat32 .kUint16 _src
  | .kFloat32, .kUint32 => env.convertFloat .kFloat32 .kUint32 _src
  | _, _ => _src

/-- The decrement `--n` of a `uint`. -/
def dec32 (n : Nat) : Nat := (n + 4294967295) % 2 ^ 32

/-- The `do ... while (_dstCount != 0 && _srcCount != 0)` loop of `ConvertCopy`, entered
at the top of its body.  `rd k` reads the source element at index `k`, `wr m k v` writes
`v` to the destination element at index `k`; `sp` and `dp` are the two pointers.
Returns the memory, the destination pointer and the remaining `_dstCount`. -/
def ConvertCopy.copyLoop {M α β : Type} (conv : α → β) (rd : Nat → α) (wr : M → Nat → β → M)
    (m : M) (sp dp _srcCount _dstCount : Nat) : M × Nat × Nat :=
  let m1 := wr m dp (conv (rd sp))
  let sp1 := sp + 1
  let dp1 := dp + 1
  let dstCount1 := dec32 _dstCount
  let srcCount1 := dec32 _srcCount
  if _h : dstCount1 ≠ 0 ∧ srcCount1 ≠ 0 then
    ConvertCopy.copyLoop conv rd wr m1 sp1 dp1 srcCount1 dstCount1
  else
    (m1, dp1, dstCount1)
termination_by dec32 _dstCount
decreasing_by
  have h1 : dec32 _dstCount ≠ 0 := _h.1
  have h2 : dec32 _dstCount < 4294967296 := by unfold dec32; omega
  have key : ∀ x : Nat, x ≠ 0 → x < 4294967296 → dec32 x < x := by
    intro x hx1 hx2
    unfold dec32
    omega
  exact key _ h1 h2

/-- The `while (_dstCount != 0)` loop of `ConvertCopy`: fill with `tDst(0)`. -/
def ConvertCopy.zeroLoop {M β : Type} (zero : β) (wr : M → Nat → β → M)
    (m : M) (dp _dstCount : Nat) : M :=
  if _dstCount ≠ 0 then
    ConvertCopy.zeroLoop zero wr (wr m dp zero) (dp + 1) (dec32 _dstCount)
  else
    m
termination_by _dstCount
decreasing_by
  rename_i h
  show dec32 _dstCount < _dstCount
  unfold dec32
  omega

/-- The function template `ConvertCopy`. -/
def ConvertCopy {M α β : Type} (conv : α → β) (zero : β) (rd : Nat → α) (wr : M → Nat → β → M)
    (m : M) (sp dp _srcCount _dstCount : Nat) : M :=
  let r := ConvertCopy.copyLoop conv rd wr m sp dp _srcCount _dstCount
  ConvertCopy.zeroLoop zero wr r.1 r.2.1 r.2.2

/-- The `for (uint i = 0, n = _size / _srcCount; i < n; ++i)` loop of
`ConvertCopyImage`. -/
def ConvertCopyImage.loop {M α β : Type} (conv : α → β) (zero : β) (rd : Nat → α)
    (wr : M → Nat → β → M) (_srcCount _dstCount n : Nat) (i sp dp : Nat) (m : M) : M :=
  if i < n then
    ConvertCopyImage.loop conv zero rd wr _srcCount _dstCount n (i + 1)
      (sp + _srcCount) (dp + _dstCount) (ConvertCopy conv zero rd wr m sp dp _srcCount _dstCount)
  else
    m
termination_by n - i

/-- The function template `ConvertCopyImage`.  (A zero `_srcCount` is a division by
zero in the source; here the quotient is then 0.) -/
def ConvertCopyImage {M α β : Type} (conv : α → β) (zero : β) (rd : Nat → α)
    (wr : M → Nat → β → M) (m : M) (_srcCount _dstCount _size : Nat) : M :=
  ConvertCopyImage.loop conv zero rd wr _srcCount _dstCount (_size / _srcCount) 0 0 0 m

/-! ## Memory -/

/-- Byte memory: the byte stored at each address. -/
abbrev Mem := Nat → Nat

/-- Typed memory: the element stored at each index of an array of `β`. -/
abbrev Arr (β : Type) := Nat → β

/-- Store into an element of a typed array (`p[k] = v`). -/
def Arr.write {β : Type} (m : Arr β) (k : Nat) (v : β) : Arr β :=
  fun j => if j = k then v else m j

/-- Read a little-endian unsigned integer of `size` bytes at `addr`. -/
def loadLE (size : Nat) (mem : Mem) (addr : Nat) : Nat :=
  match size with
  | 0 => 0
  | n + 1 => mem addr % 256 + 256 * loadLE n mem (addr + 1)

/-- Write a little-endian unsigned integer of `size` bytes at `addr`. -/
def storeLE (size : Nat) (mem : Mem) (addr : Nat) (v : Nat) : Mem :=
  match size with
  | 0 => mem
  | n + 1 => storeLE n (fun a => if a = addr then v % 256 else mem a) (addr + 1) (v / 256)

/-- The library function `memcpy(dst, src, n)`; `src` gives the bytes of the source
block, which does not overlap the destination. -/
def memcpy (mem : Mem) (dst : Nat) (src : Nat → Nat) (n : Nat) : Mem :=
  fun a => if dst ≤ a ∧ a < dst + n then src (a - dst) else mem a

/-! ## The image header -/

/-- The data members of `plr::Image`. -/
structure Image where
  m_type : ImageType
  m_width : Nat
  m_height : Nat
  m_depth : Nat
  m_arrayCount : Nat
  m_mipmapCount : Nat
  m_compression : CompressionType
  m_layout : Layout
  m_dataType : DataType
  m_errorState : ErrorState
  /-- The owned buffer: its address, `none` for the null pointer. -/
  m_data : Option Nat
  m_mipOffsets : List Nat
  m_mipSizes : List Nat
  m_arrayLayerSize : Nat
  m_texelSize : Nat
  deriving Repr

namespace Image

/-- `Image::init`.  The statement `char* m_data = 0;` declares a local variable,
so the member `m_data` keeps its value. -/
def init (env : Env) (img : Image) : Image :=
  { img with
    m_width := 1
    m_height := 1
    m_depth := 1
    m_arrayCount := 1
    m_mipmapCount := 1
    m_type := .kInvalid
    m_compression := .kNone
    m_layout := .kInvalid
    m_dataType := .kInvalid
    m_errorState := .kOk
    m_mipOffsets := List.replicate env.kMaxMipmapCount 0
    m_mipSizes := List.replicate env.kMaxMipmapCount 0
    m_arrayLayerSize := 0
    m_texelSize := 0 }

/-- The constructor `Image::Image()`: `m_data(0)` followed by `init()`. -/
def new (env : Env) : Image :=
  init env
    { m_type := .kInvalid, m_width := 0, m_height := 0, m_depth := 0, m_arrayCount := 0,
      m_mipmapCount := 0, m_compression := .kNone, m_layout := .kInvalid,
      m_dataType := .kInvalid, m_errorState := .kOk, m_data := none, m_mipOffsets := [],
      m_mipSizes := [], m_arrayLayerSize := 0, m_texelSize := 0 }

/-- `Image::GetMaxMipmapSize`. -/
def GetMaxMipmapSize (env : Env) (_width _height _depth : Nat) : Nat :=
  let log2Width := env.log2u _width
  let log2Height := env.log2u _height
  let log2Depth := env.log2u _depth
  let mipCount := u32 (PLR_MAX log2Width (PLR_MAX log2Height log2Depth) + 1)
  PLR_MIN (PLR_MIN mipCount 1) env.kMaxMipmapCount

/-- The result of the planning loop of `Image::alloc`. -/
structure Plan where
  mipOffsets : List Nat
  mipSizes : List Nat
  arrayLayerSize : Nat
  deriving Repr

/-- The `do ... while (i < lim)` loop of `Image::alloc`, entered at the top of its
body with the current values of the locals.  (`++i` cannot wrap: the loop is
entered with `i = 0` and continues only while `i < lim`.) -/
def allocLoop (texelSize lim : Nat) (i w h d : Nat) (p : Plan) : Plan :=
  let offs := p.mipOffsets.set i p.arrayLayerSize
  let size := u32 (u32 (u32 (texelSize * w) * h) * d)
  let sizes := p.mipSizes.set i size
  let layer := u32 (p.arrayLayerSize + size)
  let w1 := PLR_MAX (w / 2) 1
  let h1 := PLR_MAX (h / 2) 1
  let d1 := PLR_MAX (d / 2) 1
  let i1 := i + 1
  if i1 < lim then
    allocLoop texelSize lim i1 w1 h1 d1 ⟨offs, sizes, layer⟩
  else
    ⟨offs, sizes, layer⟩
termination_by lim - i

/-- `Image::alloc`.  (Releasing the previous buffer changes no member.) -/
def alloc (env : Env) (img : Image) : Image :=
  let texelSize := u32 (GetDataTypeSize img.m_dataType * GetComponentCount img.m_layout)
  let lim := PLR_MIN img.m_mipmapCount (GetMaxMipmapSize env img.m_width img.m_height img.m_depth)
  let p := allocLoop texelSize lim 0 img.m_width img.m_height img.m_depth
    ⟨img.m_mipOffsets, img.m_mipSizes, 0⟩
  let data := env.newChars (u32 (p.arrayLayerSize * img.m_arrayCount))
  { img with
    m_texelSize := texelSize
    m_mipOffsets := p.mipOffsets
    m_mipSizes := p.mipSizes
    m_arrayLayerSize := p.arrayLayerSize
    m_data := data
    m_errorState := if data.isNone then .kBadAlloc else img.m_errorState }

/-- `Image::Create1d`. -/
def Create1d (env : Env) (_width : Nat) (_layout : Layout) (_dataType : DataType)
    (_mipmapCount : Nat) (_compressionType : CompressionType) : Image :=
  let ret := init env (new env)
  alloc env
    { ret with
      m_type := .k1d
      m_width := _width
      m_layout := _layout
      m_dataType := _dataType
      m_mipmapCount := _mipmapCount
      m_compression := _compressionType }

/-- `Image::Create2d`. -/
def Create2d (env : Env) (_width _height : Nat) (_layout : Layout) (_dataType : DataType)
    (_mipmapCount : Nat) (_compressionType : CompressionType) : Image :=
  let ret := init env (new env)
  alloc env
    { ret with
      m_type := .k2d
      m_width := _width
      m_height := _height
      m_layout := _layout
      m_dataType := _dataType
      m_mipmapCount := _mipmapCount
      m_compression := _compressionType }

/-- `Image::Create3d`. -/
def Create3d (env : Env) (_width _height _depth : Nat) (_layout : Layout)
    (_dataType : DataType) (_mipmapCount : Nat) (_compressionType : CompressionType) : Image :=
  let ret := init env (new env)
  alloc env
    { ret with
      m_type := .k3d
      m_width := _width
      m_height := _height
      m_depth := _depth
      m_layout := _layout
      m_dataType := _dataType
      m_mipmapCount := _mipmapCount
      m_compression := _compressionType }

/-- `Image::getRawImage`: the address of the slice, `none` for the null pointer. -/
def getRawImage (img : Image) (_array _mip : Nat) : Option Nat :=
  match img.m_data with
  | none => none
  | some data =>
    if _array ≥ img.m_arrayCount ∨ _mip ≥ img.m_mipmapCount then
      none
    else
      let offset := u32 (u32 (_array * img.m_arrayLayerSize) + img.m_mipOffsets.getD _mip 0)
      some (data + offset)

/-- `Image::getRawImageSize`. -/
def getRawImageSize (img : Image) (_mip : Nat) : Nat :=
  if img.m_data = none ∨ _mip ≥ img.m_mipmapCount then
    0
  else
    img.m_mipSizes.getD _mip 0

/-- The data types for which `Image::setRawImage` has a `case` in its two switches. -/
def hasConvertCase (t : DataType) : Bool :=
  match t with
  | .kUint8 | .kUint16 | .kUint32 | .kFloat32 => true
  | _ => false

/-- `Image::setRawImage`.  `_src` gives the bytes of the source block.  The result is
the memory after the call; `none` when the call copies or converts through a null
destination pointer.  The two nested switches of the conversion path have a `case`
for the same four data types and instantiate `ConvertCopyImage` with the source and
destination element types; their `default` does nothing. -/
def setRawImage (env : Env) (img : Image) (mem : Mem) (_array _mip : Nat) (_src : Nat → Nat)
    (_layout : Layout) (_dataType : DataType) (_compressionType : CompressionType) :
    Option Mem :=
  if _layout = img.m_layout ∧ _dataType = img.m_dataType ∧
      _compressionType = img.m_compression then
    match getRawImage img _array _mip with
    | none => none
    | some dst => some (memcpy mem dst _src (getRawImageSize img _mip))
  else
    let srcCount := GetComponentCount _layout
    let dstCount := GetComponentCount img.m_layout
    let dst := getRawImage img _array _mip
    if hasConvertCase _dataType ∧ hasConvertCase img.m_dataType then
      match dst with
      | none => none
      | some dst =>
        let ssz := GetDataTypeSize _dataType
        let dsz := GetDataTypeSize img.m_dataType
        some (ConvertCopyImage (Convert env _dataType img.m_dataType) 0
          (fun k => loadLE ssz _src (k * ssz))
          (fun m k v => storeLE dsz m (dst + k * dsz) v)
          mem srcCount dstCount img.m_arrayLayerSize)
    else
      some mem

end Image


/-! ## C strings and the format guess -/

/-- Modelled from the spec: `Image::FileFormat`, the encodings DDS, PNG, TGA and
invalid. -/
inductive FileFormat where
  | kDds
  | kPng
  | kTga
  | kInvalid
  deriving DecidableEq, Repr

/-- Modelled from the spec: the numeric value of each `Image::DataType` enumerator, in
the order in which the spec lists the kinds (uint8, uint16, uint32, sint8, sint16,
sint32, float32, invalid). -/
def DataType.value (t : DataType) : Nat :=
  match t with
  | .kUint8 => 0
  | .kUint16 => 1
  | .kUint32 => 2
  | .kSint8 => 3
  | .kSint16 => 4
  | .kSint32 => 5
  | .kFloat32 => 6
  | .kInvalid => 7

/-- A C string: the characters (as byte values) before the terminating zero. -/
abbrev CStr := List Nat

/-- The characters of a string literal. -/
def cstr (s : String) : CStr := s.toList.map Char.toNat

/-- The static function `lowercase`. -/
def lowercase (c : Nat) : Nat :=
  if c ≥ 'A'.toNat ∧ c ≤ 'Z'.toNat then c + ('a'.toNat - 'A'.toNat) else c

/-- The static function `strcmp_ignore_case`: the loop runs while both strings have a
character left. -/
def strcmp_ignore_case : CStr → CStr → Int
  | c1 :: str1, c2 :: str2 =>
    let dif : Int := (lowercase c1 : Int) - (lowercase c2 : Int)
    if dif ≠ 0 then dif else strcmp_ignore_case str1 str2
  | _, _ => 0

/-- The library function `strrchr(s, c)` for a non-zero `c`: the part of `s` that starts
at the last occurrence of `c`, `none` (null) when `c` does not occur. -/
def strrchr : CStr → Nat → Option CStr
  | [], _ => none
  | x :: xs, c =>
    match strrchr xs c with
    | some r => some r
    | none => if x = c then some (x :: xs) else none

namespace Image

/-- `Image::GuessFormat`. -/
def GuessFormat (_path : CStr) : FileFormat :=
  match strrchr _path '.'.toNat with
  | some ext =>
    if strcmp_ignore_case ext (cstr ".dds") = 0 then .kDds
    else if strcmp_ignore_case ext (cstr ".png") = 0 then .kPng
    else if strcmp_ignore_case ext (cstr ".tga") = 0 then .kTga
    else .kInvalid
  | none => .kInvalid

end Image

/-! ## Format dispatcher -/

namespace Image

/-- `Image::IsDataTypeFloat`. -/
def IsDataTypeFloat (_type : DataType) : Bool :=
  decide (_type = .kFloat32)

/-- `Image::IsDataTypeSigned`: a range test on the enumerator values. -/
def IsDataTypeSigned (_type : DataType) : Bool :=
  decide (_type.value ≥ DataType.kSint8.value ∧ _type.value ≤ DataType.kSint32.value)

/-- `Image::IsDataTypeBpc`. -/
def IsDataTypeBpc (_type : DataType) (_bpc : Nat) : Bool :=
  match _type with
  | .kUint8 | .kSint8 => decide (_bpc = 8)
  | .kUint16 | .kSint16 => decide (_bpc = 16)
  | .kUint32 | .kSint32 | .kFloat32 => decide (_bpc = 32)
  | .kInvalid => false

/-- The statements of `case FileFormat::kTga` of `Image::validateFileFormat`, followed by
the `return true` that its `break` leads to. -/
def validateFileFormat.caseTga (img : Image) : Bool :=
  if img.m_compression ≠ .kNone then false
  else if IsDataTypeFloat img.m_dataType then false
  else if IsDataTypeSigned img.m_dataType then false
  else if IsDataTypeBpc img.m_dataType 16 || IsDataTypeBpc img.m_dataType 32 then false
  else true

/-- `Image::validateFileFormat`.  `case FileFormat::kPng` has no `break`: after its own
four tests control falls through into the statements of `case FileFormat::kTga`. -/
def validateFileFormat (img : Image) (_format : FileFormat) : Bool :=
  match _format with
  | .kDds =>
    if img.m_type = .k3dArray then false else true
  | .kPng =>
    if img.m_compression ≠ .kNone then false
    else if IsDataTypeFloat img.m_dataType then false
    else if IsDataTypeSigned img.m_dataType then false
    else if IsDataTypeBpc img.m_dataType 16 || IsDataTypeBpc img.m_dataType 32 then false
    else validateFileFormat.caseTga img
  | .kTga => validateFileFormat.caseTga img
  | .kInvalid => true

end Image

/-- The writers that `Image::Save` dispatches to: `WriteDds` (its definition is not part
of the sources) and the two encoders of `stb_image_write.h`; `true` stands for a
non-zero result. -/
structure Writers where
  WriteDds : CStr → Image → ErrorState
  stbi_write_png : CStr → Nat → Nat → Nat → Option Nat → Nat → Bool
  stbi_write_tga : CStr → Nat → Nat → Nat → Option Nat → Bool

/-- A call of one of the writers, with the path it is given. -/
inductive WriterCall where
  | WriteDds (path : CStr)
  | stbi_write_png (path : CStr)
  | stbi_write_tga (path : CStr)
  deriving DecidableEq, Repr

/-- Writers that always succeed. -/
def Writers.sample : Writers :=
  { WriteDds := fun _ _ => .kOk
    stbi_write_png := fun _ _ _ _ _ _ => true
    stbi_write_tga := fun _ _ _ _ _ => true }

namespace Image

/-- `Image::Save`: the returned error state and the writer calls made, in order.  (The
log line at `Image_Save_end` is no writer; the `(int)` casts of the arguments are not
modelled.) -/
def Save (wr : Writers) (_img : Image) (_path : CStr) (_format : FileFormat) :
    ErrorState × List WriterCall :=
  if _format = .kInvalid ∧ GuessFormat _path = .kInvalid then
    (.kFileFormatUnsupported, [])
  else
    let format := if _format = .kInvalid then GuessFormat _path else _format
    if ¬ validateFileFormat _img format then
      (.kFileFormatUnsupported, [])
    else
      match format with
      | .kDds => (wr.WriteDds _path _img, [.WriteDds _path])
      | .kPng =>
        (if ¬ wr.stbi_write_png _path _img.m_width _img.m_height
            (GetComponentCount _img.m_layout) _img.m_data 0
          then .kFileIoError else .kOk,
          [.stbi_write_png _path])
      | .kTga =>
        (if ¬ wr.stbi_write_tga _path _img.m_width _img.m_height
            (GetComponentCount _img.m_layout) _img.m_data
          then .kFileIoError else .kOk,
          [.stbi_write_tga _path])
      | .kInvalid => (.kFileFormatUnsupported, [])

end Image

end plr

/-! ## apt::Rand (`src/all/apt/rand.h`) -/

namespace apt

/-- The value of an integer stored in a `sint32` (two's complement wrap). -/
def toSint32 (x : Int) : Int := (x + 2 ^ 31) % 2 ^ 32 - 2 ^ 31

/-- The value of an integer converted to `uint64`. -/
def toUint64 (x : Int) : Nat := (x % 2 ^ 64).toNat

namespace Rand

/-- The specialisation `Rand::get<sint32>(_min, _max)`; `raw` is the 32-bit value that
its call of `raw()` returns (the generator is not part of the sources). -/
def get (raw : Nat) (_min _max : Int) : Int :=
  let i : Nat := (raw * toUint64 (toSint32 (toSint32 (_max - _min) + 1))) % 2 ^ 64
  let j : Nat := (i / 2 ^ 32) % 2 ^ 32
  toSint32 (toSint32 (j : Int) + _min)

end Rand

end apt

namespace plr

/-! ## Auxiliary definitions used to state the results -/

/-- The level-0 byte size computed by `alloc`, with the wrap of every `uint` product. -/
def Image.level0Size (img : Image) : Nat :=
  u32 (u32 (u32 (u32 (GetDataTypeSize img.m_dataType * GetComponentCount img.m_layout)
        * img.m_width) * img.m_height) * img.m_depth)

/-- One step of mip reduction, as in the loop of `alloc`: halve, at least 1. -/
def halve (v : Nat) : Nat := PLR_MAX (v / 2) 1

/-- The byte size of level `j` as a natural number (no wrap). -/
def levelBytes (texel w h d j : Nat) : Nat :=
  texel * halve^[j] w * halve^[j] h * halve^[j] d

/-- The sum of the byte sizes of the levels `0 .. k-1` (no wrap). -/
def layerBytes (texel w h d : Nat) : Nat → Nat
  | 0 => 0
  | k + 1 => layerBytes texel w h d k + levelBytes texel w h d k

/-- Write `f 0, f 1, ..., f (k-1)` to the elements `dp, dp+1, ...` in this order. -/
def writeRange {M β : Type} (wr : M → Nat → β → M) (f : Nat → β) : Nat → Nat → M → M
  | _, 0, m => m
  | dp, k + 1, m => writeRange wr (fun t => f (t + 1)) (dp + 1) k (wr m dp (f 0))

/-- The number of rounds of the `do ... while (i < lim)` loop of `alloc`, that is the
number of levels it plans: `lim`, but at least one. -/
def Image.plannedLevels (env : Env) (img : Image) : Nat :=
  max (PLR_MIN img.m_mipmapCount
    (Image.GetMaxMipmapSize env img.m_width img.m_height img.m_depth)) 1

/-- A header as a two-layer image with two mip levels has it: 4 x 4 RGBA uint8, level
sizes 64 and 16, buffer at address 4096. -/
def Image.sampleArray : Image :=
  { m_type := .k2dArray, m_width := 4, m_height := 4, m_depth := 1, m_arrayCount := 2,
    m_mipmapCount := 2, m_compression := .kNone, m_layout := .kRGBA,
    m_dataType := .kUint8, m_errorState := .kOk, m_data := some 4096,
    m_mipOffsets := [0, 64, 0, 0], m_mipSizes := [64, 16, 0, 0], m_arrayLayerSize := 80,
    m_texelSize := 4 }

/-- The header that `Create2d` hands to `alloc`: 4 x 4 RGBA uint8 with one mip level
requested. -/
def Image.sampleHeader : Image :=
  { Image.init Env.sample (Image.new Env.sample) with
    m_type := .k2d, m_width := 4, m_height := 4, m_layout := .kRGBA,
    m_dataType := .kUint8, m_mipmapCount := 1 }

/-! ## Auxiliary definitions for the format dispatcher -/

/-- The version of `validateFileFormat` in which `case FileFormat::kPng` ends with its own
`break`: the four tests of the case, then `return true`. -/
def Image.validateFileFormatWithBreak (img : Image) (_format : FileFormat) : Bool :=
  match _format with
  | .kDds =>
    if img.m_type = .k3dArray then false else true
  | .kPng =>
    if img.m_compression ≠ .kNone then false
    else if Image.IsDataTypeFloat img.m_dataType then false
    else if Image.IsDataTypeSigned img.m_dataType then false
    else if Image.IsDataTypeBpc img.m_dataType 16 || Image.IsDataTypeBpc img.m_dataType 32 then
      false
    else true
  | .kTga => Image.validateFileFormat.caseTga img
  | .kInvalid => true

/-- The format that `Save` works with: the hint, or the guess from the path when the hint
is invalid. -/
def Image.resolvedFormat (_path : CStr) (_format : FileFormat) : FileFormat :=
  if _format = .kInvalid then Image.GuessFormat _path else _format

/-- The characters `b` that `a` can become by a change of case: `a` itself, or the other
case of `a` when `a` is an ASCII letter. -/
def caseFlip (a b : Nat) : Prop :=
  a = b ∨ ('A'.toNat ≤ a ∧ a ≤ 'Z'.toNat ∧ b = a + 32) ∨
    ('A'.toNat ≤ b ∧ b ≤ 'Z'.toNat ∧ a = b + 32)

/-- The path `q` is obtained from `p` by changing the case of some ASCII letters. -/
def CaseVariant (p q : CStr) : Prop := List.Forall₂ caseFlip p q

/-- A default-constructed header (data type and layout invalid, no compression), as
`Image::Load` returns it for a PNG or TGA path. -/
def Image.sampleBlank : Image := Image.new Env.sample

/-- A 4 x 4 image of the given kind, layout and data type, uncompressed. -/
def Image.sampleOf (k : ImageType) (l : Layout) (t : DataType) : Image :=
  { Image.sampleArray with m_type := k, m_layout := l, m_dataType := t }

/-- The image made by `Create2d(256, 256, RGBA, uint8, 9)`. -/
def Image.sampleMips : Image := Image.Create2d Env.sample 256 256 .kRGBA .kUint8 9 .kNone

/-- The plan that the planning loop of `alloc` makes with the limit 3 for a 4 x 4 x 1
image of 4-byte texels, from zeroed tables of 16 entries. -/
def Image.samplePlan : Plan :=
  Image.allocLoop 4 3 0 4 4 1 ⟨List.replicate 16 0, List.replicate 16 0, 0⟩

/-! ## Basic facts -/

open Image

theorem PLR_MIN_eq (a b : Nat) : PLR_MIN a b = min a b := by
  unfold PLR_MIN; split <;> omega

theorem PLR_MAX_eq (a b : Nat) : PLR_MAX a b = max a b := by
  unfold PLR_MAX; split <;> omega

theorem u32_of_lt {n : Nat} (h : n < 2 ^ 32) : u32 n = n := Nat.mod_eq_of_lt h

theorem u32_mul_chain (t w h d : Nat) :
    u32 (u32 (u32 (t * w) * h) * d) = u32 (t * w * h * d) := by
  simp only [u32, Nat.mod_mul_mod]

theorem texel_lt (t : DataType) (l : Layout) :
    GetDataTypeSize t * GetComponentCount l < 2 ^ 32 := by
  cases t <;> cases l <;> decide

theorem getD_set_eq (l : List Nat) (i v : Nat) (h : i < l.length) :
    (l.set i v).getD i 0 = v := by
  simp [List.getD_eq_getElem?_getD, List.getElem?_set, h]

theorem getD_set_ne (l : List Nat) (i j v : Nat) (h : i ≠ j) :
    (l.set i v).getD j 0 = l.getD j 0 := by
  simp [List.getD_eq_getElem?_getD, List.getElem?_set, h]

theorem getD_replicate_zero (n j : Nat) : (List.replicate n 0).getD j 0 = 0 := by
  simp [List.getD_eq_getElem?_getD, List.getElem?_replicate]
  split <;> rfl

/-! ## The level limit of `alloc` -/

theorem GetMaxMipmapSize_le_one (env : Env) (w h d : Nat) :
    GetMaxMipmapSize env w h d ≤ 1 := by
  simp only [GetMaxMipmapSize, PLR_MIN_eq]
  omega

theorem GetMaxMipmapSize_le_kMax (env : Env) (w h d : Nat) :
    GetMaxMipmapSize env w h d ≤ env.kMaxMipmapCount := by
  simp only [GetMaxMipmapSize, PLR_MIN_eq]
  omega

theorem alloc_lim_le_one (env : Env) (img : Image) :
    PLR_MIN img.m_mipmapCount (GetMaxMipmapSize env img.m_width img.m_height img.m_depth) ≤ 1 := by
  have := GetMaxMipmapSize_le_one env img.m_width img.m_height img.m_depth
  rw [PLR_MIN_eq]; omega

theorem plannedLevels_le_kMax (env : Env) (img : Image) (hk : 1 ≤ env.kMaxMipmapCount) :
    plannedLevels env img ≤ env.kMaxMipmapCount := by
  have := GetMaxMipmapSize_le_kMax env img.m_width img.m_height img.m_depth
  simp only [plannedLevels, PLR_MIN_eq]
  omega

theorem plannedLevels_eq_one (env : Env) (img : Image) : plannedLevels env img = 1 := by
  have := alloc_lim_le_one env img
  simp only [plannedLevels]
  omega

/-! ## The planning loop -/

theorem allocLoop_once (texelSize lim w h d : Nat) (p : Plan) (hlim : lim ≤ 1) :
    allocLoop texelSize lim 0 w h d p =
      ⟨p.mipOffsets.set 0 p.arrayLayerSize,
       p.mipSizes.set 0 (u32 (u32 (u32 (texelSize * w) * h) * d)),
       u32 (p.arrayLayerSize + u32 (u32 (u32 (texelSize * w) * h) * d))⟩ := by
  rw [allocLoop]
  simp only [Nat.zero_add]
  rw [if_neg (show ¬ (1 < lim) by omega)]

theorem alloc_eq (env : Env) (img : Image) :
    alloc env img =
      { img with
        m_texelSize := u32 (GetDataTypeSize img.m_dataType * GetComponentCount img.m_layout)
        m_mipOffsets := img.m_mipOffsets.set 0 0
        m_mipSizes := img.m_mipSizes.set 0 (level0Size img)
        m_arrayLayerSize := u32 (0 + level0Size img)
        m_data := env.newChars (u32 (u32 (0 + level0Size img) * img.m_arrayCount))
        m_errorState :=
          if (env.newChars (u32 (u32 (0 + level0Size img) * img.m_arrayCount))).isNone then
            .kBadAlloc
          else img.m_errorState } := by
  simp only [alloc, level0Size]
  rw [allocLoop_once _ _ _ _ _ _ (alloc_lim_le_one env img)]

theorem Create2d_mipSizes (env : Env) (w h : Nat) (l : Layout) (t : DataType) (m : Nat)
    (c : CompressionType) :
    (Create2d env w h l t m c).m_mipSizes =
      (List.replicate env.kMaxMipmapCount 0).set 0
        (u32 (u32 (u32 (u32 (GetDataTypeSize t * GetComponentCount l) * w) * h) * 1)) := by
  rw [Create2d, alloc_eq]
  rfl

theorem Create2d_mipOffsets (env : Env) (w h : Nat) (l : Layout) (t : DataType) (m : Nat)
    (c : CompressionType) :
    (Create2d env w h l t m c).m_mipOffsets = (List.replicate env.kMaxMipmapCount 0).set 0 0 := by
  rw [Create2d, alloc_eq]
  rfl

theorem Create2d_mipmapCount (env : Env) (w h : Nat) (l : Layout) (t : DataType) (m : Nat)
    (c : CompressionType) : (Create2d env w h l t m c).m_mipmapCount = m := rfl

theorem Create2d_sample_data (w h : Nat) (l : Layout) (t : DataType) (m : Nat)
    (c : CompressionType) : (Create2d Env.sample w h l t m c).m_data = some 4096 := rfl

theorem levelBytes_shift (t w h d j : Nat) :
    levelBytes t (halve w) (halve h) (halve d) j = levelBytes t w h d (j + 1) := by
  simp only [levelBytes, Function.iterate_succ_apply]

theorem layerBytes_shift (t w h d k : Nat) :
    layerBytes t w h d (k + 1) =
      levelBytes t w h d 0 + layerBytes t (halve w) (halve h) (halve d) k := by
  induction k with
  | zero => simp [layerBytes]
  | succ k ih =>
    rw [layerBytes, ih, layerBytes, levelBytes_shift]
    omega

theorem halve_iterate (w : Nat) (hw : 1 ≤ w) (j : Nat) : halve^[j] w = max (w / 2 ^ j) 1 := by
  induction j with
  | zero => simp; omega
  | succ j ih =>
    rw [Function.iterate_succ_apply', ih, halve, PLR_MAX]
    rw [pow_succ, ← Nat.div_div_eq_div_mul]
    split <;> omega

/-- The planning loop, entered at index `i` and left after `c = max (lim - i) 1` rounds,
fills the entries `i .. i + c - 1` with the level sizes and their running offsets,
touches no other entry and adds the sizes to the layer size (for every `lim`, as long
as nothing wraps and the tables have room). -/
theorem allocLoop_spec (texel lim L : Nat) :
    ∀ (n i w h d : Nat) (p : Plan), n = lim - (i + 1) →
      p.mipOffsets.length = L → p.mipSizes.length = L →
      i + max (lim - i) 1 ≤ L →
      p.arrayLayerSize + layerBytes texel w h d (max (lim - i) 1) < 2 ^ 32 →
      (allocLoop texel lim i w h d p).mipOffsets.length = L ∧
      (allocLoop texel lim i w h d p).mipSizes.length = L ∧
      (∀ j, j < max (lim - i) 1 →
        (allocLoop texel lim i w h d p).mipSizes.getD (i + j) 0 = levelBytes texel w h d j ∧
        (allocLoop texel lim i w h d p).mipOffsets.getD (i + j) 0 =
          p.arrayLayerSize + layerBytes texel w h d j) ∧
      (∀ j, j < i ∨ i + max (lim - i) 1 ≤ j →
        (allocLoop texel lim i w h d p).mipSizes.getD j 0 = p.mipSizes.getD j 0 ∧
        (allocLoop texel lim i w h d p).mipOffsets.getD j 0 = p.mipOffsets.getD j 0) ∧
      (allocLoop texel lim i w h d p).arrayLayerSize =
        p.arrayLayerSize + layerBytes texel w h d (max (lim - i) 1) := by
  intro n
  induction n with
  | zero =>
    intro i w h d p hn hl1 hl2 hL hno
    have hc : max (lim - i) 1 = 1 := by omega
    rw [hc] at hL hno ⊢
    have h0 : levelBytes texel w h d 0 < 2 ^ 32 := by
      simp only [layerBytes] at hno; omega
    have hsz : u32 (u32 (u32 (texel * w) * h) * d) = levelBytes texel w h d 0 := by
      rw [u32_mul_chain]; exact u32_of_lt h0
    rw [allocLoop]
    simp only [hsz]
    rw [if_neg (show ¬ (i + 1 < lim) by omega)]
    simp only [layerBytes, Nat.zero_add] at hno ⊢
    refine ⟨by simp [hl1], by simp [hl2], ?_, ?_, ?_⟩
    · intro j hj
      obtain rfl : j = 0 := by omega
      simp only [Nat.add_zero, layerBytes]
      exact ⟨getD_set_eq _ _ _ (by omega), getD_set_eq _ _ _ (by omega)⟩
    · intro j hj
      exact ⟨getD_set_ne _ _ _ _ (by omega), getD_set_ne _ _ _ _ (by omega)⟩
    · exact u32_of_lt (by omega)
  | succ n ih =>
    intro i w h d p hn hl1 hl2 hL hno
    have hc : max (lim - i) 1 = (max (lim - (i + 1)) 1) + 1 := by omega
    have hlt : i + 1 < lim := by omega
    rw [hc] at hL hno ⊢
    rw [layerBytes_shift] at hno
    have h0 : levelBytes texel w h d 0 < 2 ^ 32 := by omega
    have hsz : u32 (u32 (u32 (texel * w) * h) * d) = levelBytes texel w h d 0 := by
      rw [u32_mul_chain]; exact u32_of_lt h0
    rw [allocLoop]
    simp only [hsz]
    rw [if_pos hlt]
    have hlayer : u32 (p.arrayLayerSize + levelBytes texel w h d 0)
        = p.arrayLayerSize + levelBytes texel w h d 0 := u32_of_lt (by omega)
    rw [hlayer]
    obtain ⟨r1, r2, r3, r4, r5⟩ := ih (i + 1) (PLR_MAX (w / 2) 1) (PLR_MAX (h / 2) 1)
      (PLR_MAX (d / 2) 1)
      ⟨p.mipOffsets.set i p.arrayLayerSize, p.mipSizes.set i (levelBytes texel w h d 0),
        p.arrayLayerSize + levelBytes texel w h d 0⟩
      (by omega) (by simp [hl1]) (by simp [hl2]) (by omega)
      (by
        show p.arrayLayerSize + levelBytes texel w h d 0
          + layerBytes texel (halve w) (halve h) (halve d) _ < _
        omega)
    refine ⟨r1, r2, ?_, ?_, ?_⟩
    · intro j hj
      rcases j with _ | j
      · have := r4 i (Or.inl (by omega))
        simp only [Nat.add_zero, layerBytes]
        rw [this.1, this.2]
        exact ⟨getD_set_eq _ _ _ (by omega), getD_set_eq _ _ _ (by omega)⟩
      · have := r3 j (by omega)
        have e : i + (j + 1) = i + 1 + j := by omega
        rw [e, this.1, this.2]
        refine ⟨levelBytes_shift _ _ _ _ _, ?_⟩
        show _ + _ + layerBytes texel (halve w) (halve h) (halve d) j = _
        rw [layerBytes_shift]; omega
    · intro j hj
      have := r4 j (by omega)
      rw [this.1, this.2]
      exact ⟨getD_set_ne _ _ _ _ (by omega), getD_set_ne _ _ _ _ (by omega)⟩
    · rw [r5]
      show _ + _ + layerBytes texel (halve w) (halve h) (halve d) _ = _
      rw [layerBytes_shift]; omega

/-- With a limit `lim` the planning loop gives every level `i < max lim 1` the size
`texel * max (w / 2^i) 1 * max (h / 2^i) 1 * max (d / 2^i) 1`. -/
theorem allocLoop_level_size (texel lim L w h d : Nat) (offs sizes : List Nat)
    (hw : 1 ≤ w) (hh : 1 ≤ h) (hd : 1 ≤ d)
    (hlo : offs.length = L) (hls : sizes.length = L) (hL : max lim 1 ≤ L)
    (hno : layerBytes texel w h d (max lim 1) < 2 ^ 32) (i : Nat) (hi : i < max lim 1) :
    (allocLoop texel lim 0 w h d ⟨offs, sizes, 0⟩).mipSizes.getD i 0 =
      texel * max (w / 2 ^ i) 1 * max (h / 2 ^ i) 1 * max (d / 2 ^ i) 1 := by
  obtain ⟨_, _, r3, _, _⟩ := allocLoop_spec texel lim L _ 0 w h d ⟨offs, sizes, 0⟩ rfl hlo hls
    (by simpa using hL) (by simpa using hno)
  have := (r3 i (by simpa using hi)).1
  rw [Nat.zero_add] at this
  rw [this, levelBytes, halve_iterate w hw, halve_iterate h hh, halve_iterate d hd]

theorem take_sum_layerBytes (t w h d : Nat) (l : List Nat) :
    ∀ k, k ≤ l.length → (∀ j, j < k → l.getD j 0 = levelBytes t w h d j) →
      (l.take k).sum = layerBytes t w h d k := by
  intro k
  induction k with
  | zero => intro _ _; simp [layerBytes]
  | succ k ih =>
    intro hk hj
    have hlt : k < l.length := by omega
    rw [List.take_succ, List.sum_append, ih (by omega) (fun j hjk => hj j (by omega)), layerBytes]
    have := hj k (by omega)
    rw [List.getD_eq_getElem?_getD] at this
    rw [← this]
    simp [List.getElem?_eq_getElem hlt]

/-! ## The conversion loops -/

theorem writeRange_succ {M β : Type} (wr : M → Nat → β → M) (f : Nat → β) (dp k : Nat) (m : M) :
    writeRange wr f dp (k + 1) m = writeRange wr (fun t => f (t + 1)) (dp + 1) k (wr m dp (f 0)) :=
  rfl

theorem dec32_of_pos {n : Nat} (h1 : 1 ≤ n) (h2 : n < 2 ^ 32) : dec32 n = n - 1 := by
  unfold dec32; omega

theorem copyLoop_eq {M α β : Type} (conv : α → β) (rd : Nat → α) (wr : M → Nat → β → M) :
    ∀ (k : Nat) (m : M) (sp dp s d : Nat), k + 1 = min s d → s < 2 ^ 32 → d < 2 ^ 32 →
      ConvertCopy.copyLoop conv rd wr m sp dp s d =
        (writeRange wr (fun t => conv (rd (sp + t))) dp (k + 1) m, dp + (k + 1), d - (k + 1)) := by
  intro k
  induction k with
  | zero =>
    intro m sp dp s d hk hs hd
    rw [ConvertCopy.copyLoop]
    simp only [dec32_of_pos (show 1 ≤ s by omega) hs, dec32_of_pos (show 1 ≤ d by omega) hd]
    rw [dif_neg (show ¬ (d - 1 ≠ 0 ∧ s - 1 ≠ 0) by omega)]
    simp [writeRange]
  | succ k ih =>
    intro m sp dp s d hk hs hd
    rw [ConvertCopy.copyLoop]
    simp only [dec32_of_pos (show 1 ≤ s by omega) hs, dec32_of_pos (show 1 ≤ d by omega) hd]
    rw [dif_pos (show (d - 1 ≠ 0 ∧ s - 1 ≠ 0) by omega)]
    rw [ih _ _ _ (s - 1) (d - 1) (by omega) (by omega) (by omega)]
    rw [writeRange_succ wr _ dp (k + 1) m]
    have e : (fun t => conv (rd (sp + 1 + t))) = (fun t => conv (rd (sp + (t + 1)))) := by
      funext t; congr 2; omega
    simp only [Nat.add_zero, e, Prod.mk.injEq, true_and]
    omega

theorem zeroLoop_eq {M β : Type} (zero : β) (wr : M → Nat → β → M) :
    ∀ (d : Nat) (m : M) (dp : Nat), d < 2 ^ 32 →
      ConvertCopy.zeroLoop zero wr m dp d = writeRange wr (fun _ => zero) dp d m := by
  intro d
  induction d with
  | zero =>
    intro m dp _
    rw [ConvertCopy.zeroLoop]
    simp [writeRange]
  | succ d ih =>
    intro m dp hd
    rw [ConvertCopy.zeroLoop]
    rw [if_pos (show d + 1 ≠ 0 by omega), dec32_of_pos (by omega) hd]
    simp only [Nat.add_sub_cancel]
    rw [ih _ _ (by omega)]
    rfl

theorem ConvertCopy_eq {M α β : Type} (conv : α → β) (zero : β) (rd : Nat → α)
    (wr : M → Nat → β → M) (m : M) (sp dp s d : Nat)
    (hs1 : 1 ≤ s) (hs : s < 2 ^ 32) (hd1 : 1 ≤ d) (hd : d < 2 ^ 32) :
    ConvertCopy conv zero rd wr m sp dp s d =
      writeRange wr (fun _ => zero) (dp + min s d) (d - min s d)
        (writeRange wr (fun t => conv (rd (sp + t))) dp (min s d) m) := by
  unfold ConvertCopy
  obtain ⟨k, hk⟩ : ∃ k, k + 1 = min s d := ⟨min s d - 1, by omega⟩
  rw [copyLoop_eq conv rd wr k m sp dp s d hk hs hd]
  simp only
  rw [zeroLoop_eq zero wr _ _ _ (by omega), hk]

theorem writeRange_Arr {β : Type} (f : Nat → β) :
    ∀ (k dp : Nat) (m : Arr β) (j : Nat),
      writeRange Arr.write f dp k m j = if dp ≤ j ∧ j < dp + k then f (j - dp) else m j := by
  intro k
  induction k generalizing f with
  | zero =>
    intro dp m j
    rw [if_neg (by omega)]
    rfl
  | succ k ih =>
    intro dp m j
    rw [writeRange_succ, ih]
    by_cases h1 : dp + 1 ≤ j ∧ j < dp + 1 + k
    · rw [if_pos h1, if_pos (by omega)]
      congr 1; omega
    · rw [if_neg h1]
      unfold Arr.write
      by_cases h2 : j = dp
      · subst h2; simp
      · rw [if_neg h2, if_neg (by omega)]

theorem ConvertCopy_Arr {α β : Type} (conv : α → β) (zero : β) (rd : Nat → α)
    (m : Arr β) (sp dp s d : Nat)
    (hs1 : 1 ≤ s) (hs : s < 2 ^ 32) (hd1 : 1 ≤ d) (hd : d < 2 ^ 32) (j : Nat) :
    ConvertCopy conv zero rd Arr.write m sp dp s d j =
      if dp ≤ j ∧ j < dp + d then
        (if j - dp < s then conv (rd (sp + (j - dp))) else zero)
      else m j := by
  rw [ConvertCopy_eq conv zero rd Arr.write m sp dp s d hs1 hs hd1 hd, writeRange_Arr, writeRange_Arr]
  by_cases h1 : dp ≤ j ∧ j < dp + d
  · rw [if_pos h1]
    by_cases h2 : j - dp < s
    · rw [if_pos h2, if_neg (by omega), if_pos (by omega)]
    · rw [if_neg h2, if_pos (by omega)]
  · rw [if_neg h1, if_neg (by omega), if_neg (by omega)]

theorem ConvertCopyImage_loop_Arr {α β : Type} (conv : α → β) (zero : β) (rd : Nat → α)
    (s d n : Nat) (hs1 : 1 ≤ s) (hs : s < 2 ^ 32) (hd1 : 1 ≤ d) (hd : d < 2 ^ 32) :
    ∀ (k i sp dp : Nat) (m : Arr β) (j : Nat), k = n - i →
      ConvertCopyImage.loop conv zero rd Arr.write s d n i sp dp m j =
        if dp ≤ j ∧ j < dp + (n - i) * d then
          (if (j - dp) % d < s then conv (rd (sp + (j - dp) / d * s + (j - dp) % d)) else zero)
        else m j := by
  intro k
  induction k with
  | zero =>
    intro i sp dp m j hk
    rw [ConvertCopyImage.loop, if_neg (show ¬ (i < n) by omega)]
    rw [if_neg]
    rintro ⟨h1, h2⟩
    have : n - i = 0 := by omega
    rw [this] at h2
    omega
  | succ k ih =>
    intro i sp dp m j hk
    rw [ConvertCopyImage.loop, if_pos (show i < n by omega)]
    rw [ih (i + 1) (sp + s) (dp + d) _ j (by omega)]
    have hn : n - i = (n - (i + 1)) + 1 := by omega
    rw [hn, Nat.add_mul, Nat.one_mul]
    by_cases h1 : dp + d ≤ j ∧ j < dp + d + (n - (i + 1)) * d
    · have hR : dp ≤ j ∧ j < dp + ((n - (i + 1)) * d + d) := by omega
      rw [if_pos h1, if_pos hR]
      obtain ⟨x, hx⟩ : ∃ x, j = dp + d + x := ⟨j - (dp + d), by omega⟩
      have e1 : j - (dp + d) = x := by omega
      have e2 : j - dp = x + d := by omega
      rw [e1, e2, Nat.add_mod_right, Nat.add_div_right _ (by omega : 0 < d)]
      have e3 : sp + s + x / d * s = sp + (x / d).succ * s := by
        rw [Nat.succ_mul]; omega
      rw [e3]
    · rw [if_neg h1, ConvertCopy_Arr conv zero rd m sp dp s d hs1 hs hd1 hd]
      by_cases h2 : dp ≤ j ∧ j < dp + d
      · have hR : dp ≤ j ∧ j < dp + ((n - (i + 1)) * d + d) := by
          have := Nat.zero_le ((n - (i + 1)) * d)
          omega
        rw [if_pos h2, if_pos hR]
        have e4 : (j - dp) % d = j - dp := Nat.mod_eq_of_lt (by omega)
        have e5 : (j - dp) / d = 0 := Nat.div_eq_of_lt (by omega)
        rw [e4, e5]
        simp
      · have hR : ¬ (dp ≤ j ∧ j < dp + ((n - (i + 1)) * d + d)) := by omega
        rw [if_neg h2, if_neg hR]

theorem loop_unfold_pos {M α β : Type} (conv : α → β) (zero : β) (rd : Nat → α)
    (wr : M → Nat → β → M) (s d n i sp dp : Nat) (m : M) (h : i < n) :
    ConvertCopyImage.loop conv zero rd wr s d n i sp dp m =
      ConvertCopyImage.loop conv zero rd wr s d n (i + 1) (sp + s) (dp + d)
        (ConvertCopy conv zero rd wr m sp dp s d) := by
  rw [ConvertCopyImage.loop, if_pos h]

theorem loop_unfold_neg {M α β : Type} (conv : α → β) (zero : β) (rd : Nat → α)
    (wr : M → Nat → β → M) (s d n i sp dp : Nat) (m : M) (h : ¬ i < n) :
    ConvertCopyImage.loop conv zero rd wr s d n i sp dp m = m := by
  rw [ConvertCopyImage.loop, if_neg h]


/-! ## Case changes and the format guess -/

theorem lowercase_eq (c : Nat) : lowercase c = if 65 ≤ c ∧ c ≤ 90 then c + 32 else c := rfl

theorem caseFlip_iff (a b : Nat) :
    caseFlip a b ↔ (a = b ∨ (65 ≤ a ∧ a ≤ 90 ∧ b = a + 32) ∨ (65 ≤ b ∧ b ≤ 90 ∧ a = b + 32)) :=
  Iff.rfl

theorem lowercase_caseFlip {a b : Nat} (h : caseFlip a b) : lowercase a = lowercase b := by
  rw [caseFlip_iff] at h
  rw [lowercase_eq, lowercase_eq]
  split <;> split <;> omega

theorem caseFlip_dot {a b : Nat} (h : caseFlip a b) : a = 46 ↔ b = 46 := by
  rw [caseFlip_iff] at h
  omega

theorem strcmp_caseVariant {p q : CStr} (h : CaseVariant p q) (t : CStr) :
    strcmp_ignore_case p t = strcmp_ignore_case q t := by
  induction h generalizing t with
  | nil => rfl
  | cons hab _ ih =>
    cases t with
    | nil => rfl
    | cons c t =>
      simp only [strcmp_ignore_case, lowercase_caseFlip hab, ih t]

theorem strrchr_caseVariant {p q : CStr} (h : CaseVariant p q) :
    (strrchr p 46 = none ∧ strrchr q 46 = none) ∨
    ∃ e1 e2, strrchr p 46 = some e1 ∧ strrchr q 46 = some e2 ∧ CaseVariant e1 e2 := by
  induction h with
  | nil => exact Or.inl ⟨rfl, rfl⟩
  | @cons a b p q hab hpq ih =>
    rcases ih with ⟨h1, h2⟩ | ⟨e1, e2, h1, h2, h3⟩
    · simp only [strrchr, h1, h2]
      by_cases ha : a = 46
      · have hb : b = 46 := (caseFlip_dot hab).1 ha
        right
        exact ⟨a :: p, b :: q, by simp [ha], by simp [hb], List.Forall₂.cons hab hpq⟩
      · have hb : ¬ b = 46 := fun hb => ha ((caseFlip_dot hab).2 hb)
        left
        simp [ha, hb]
    · right
      exact ⟨e1, e2, by simp [strrchr, h1], by simp [strrchr, h2], h3⟩

/-! ## The format tests -/

theorem caseTga_eq_true_iff (img : Image) :
    validateFileFormat.caseTga img = true ↔
      img.m_compression = .kNone ∧ (img.m_dataType = .kUint8 ∨ img.m_dataType = .kInvalid) := by
  unfold validateFileFormat.caseTga
  by_cases hc : img.m_compression = .kNone
  · rw [if_neg (not_not.mpr hc)]
    cases hd : img.m_dataType <;> simp [hc, IsDataTypeFloat, IsDataTypeSigned, IsDataTypeBpc,
      DataType.value]
  · rw [if_pos hc]
    simp [hc]

theorem validateFileFormat_png_eq_caseTga (img : Image) :
    validateFileFormat img .kPng = validateFileFormat.caseTga img := by
  simp only [validateFileFormat, validateFileFormat.caseTga]
  split
  · rfl
  · split
    · rfl
    · split
      · rfl
      · split <;> rfl

/-! ## Accumulation of the offsets -/

theorem allocLoop_accumulate (texel lim w h d : Nat) (offs sizes : List Nat)
    (hlen : offs.length = sizes.length) (hL : max lim 1 ≤ offs.length)
    (hno : layerBytes texel w h d (max lim 1) < 2 ^ 32) :
    (allocLoop texel lim 0 w h d ⟨offs, sizes, 0⟩).mipOffsets.getD 0 0 = 0 ∧
    (∀ i, i + 1 < max lim 1 →
      (allocLoop texel lim 0 w h d ⟨offs, sizes, 0⟩).mipOffsets.getD (i + 1) 0 =
        (allocLoop texel lim 0 w h d ⟨offs, sizes, 0⟩).mipOffsets.getD i 0 +
          (allocLoop texel lim 0 w h d ⟨offs, sizes, 0⟩).mipSizes.getD i 0) ∧
    (allocLoop texel lim 0 w h d ⟨offs, sizes, 0⟩).arrayLayerSize =
      ((allocLoop texel lim 0 w h d ⟨offs, sizes, 0⟩).mipSizes.take (max lim 1)).sum := by
  obtain ⟨_, r2, r3, _, r5⟩ := allocLoop_spec texel lim offs.length _ 0 w h d
    ⟨offs, sizes, 0⟩ rfl rfl hlen.symm (by simpa using hL) (by simpa using hno)
  simp only [Nat.sub_zero, Nat.zero_add] at r2 r3 r5
  refine ⟨?_, ?_, ?_⟩
  · rw [(r3 0 (by omega)).2]; rfl
  · intro i hi
    rw [(r3 (i + 1) hi).2, (r3 i (by omega)).2, (r3 i (by omega)).1]
    rfl
  · rw [r5, take_sum_layerBytes _ _ _ _ _ _ (by omega) (fun j hj => (r3 j hj).1)]

theorem alloc_plan_eq (env : Env) (img : Image) :
    (alloc env img).m_mipOffsets =
      (allocLoop (GetDataTypeSize img.m_dataType * GetComponentCount img.m_layout)
        (PLR_MIN img.m_mipmapCount
          (GetMaxMipmapSize env img.m_width img.m_height img.m_depth))
        0 img.m_width img.m_height img.m_depth
        ⟨img.m_mipOffsets, img.m_mipSizes, 0⟩).mipOffsets ∧
    (alloc env img).m_mipSizes =
      (allocLoop (GetDataTypeSize img.m_dataType * GetComponentCount img.m_layout)
        (PLR_MIN img.m_mipmapCount
          (GetMaxMipmapSize env img.m_width img.m_height img.m_depth))
        0 img.m_width img.m_height img.m_depth
        ⟨img.m_mipOffsets, img.m_mipSizes, 0⟩).mipSizes ∧
    (alloc env img).m_arrayLayerSize =
      (allocLoop (GetDataTypeSize img.m_dataType * GetComponentCount img.m_layout)
        (PLR_MIN img.m_mipmapCount
          (GetMaxMipmapSize env img.m_width img.m_height img.m_depth))
        0 img.m_width img.m_height img.m_depth
        ⟨img.m_mipOffsets, img.m_mipSizes, 0⟩).arrayLayerSize := by
  simp only [alloc, u32_of_lt (texel_lt _ _)]
  trivial

theorem samplePlan_level_sizes :
    samplePlan.mipSizes.getD 0 0 = 64 ∧ samplePlan.mipSizes.getD 1 0 = 16 ∧
    samplePlan.mipSizes.getD 2 0 = 4 := by
  have h := allocLoop_level_size 4 3 16 4 4 1 (List.replicate 16 0) (List.replicate 16 0)
    (by decide) (by decide) (by decide) (by simp) (by simp) (by decide) (by decide)
  exact ⟨h 0 (by decide), h 1 (by decide), h 2 (by decide)⟩

/-! ## Slices of a created image -/

theorem alloc_slice_in_buffer (env : Env) (img : Image)
    (hO : img.m_mipOffsets = List.replicate env.kMaxMipmapCount 0)
    (hS : img.m_mipSizes = List.replicate env.kMaxMipmapCount 0)
    (hA : img.m_arrayCount = 1) (hm : img.m_mipmapCount ≤ env.kMaxMipmapCount)
    (_array _mip : Nat) (ha : _array < (alloc env img).m_arrayCount)
    (hmip : _mip < (alloc env img).m_mipmapCount) :
    _array * (alloc env img).m_arrayLayerSize + (alloc env img).m_mipOffsets.getD _mip 0 +
        (alloc env img).m_mipSizes.getD _mip 0 ≤
      (alloc env img).m_arrayLayerSize * (alloc env img).m_arrayCount ∧
    (alloc env img).m_data =
      env.newChars ((alloc env img).m_arrayLayerSize * (alloc env img).m_arrayCount) := by
  rw [alloc_eq] at ha hmip ⊢
  simp only [hO, hS, hA] at ha hmip ⊢
  have hlt : level0Size img < 2 ^ 32 := Nat.mod_lt _ (by norm_num)
  have hu : u32 (0 + level0Size img) = level0Size img := by
    rw [Nat.zero_add]; exact u32_of_lt hlt
  rw [hu]
  obtain rfl : _array = 0 := by omega
  refine ⟨?_, ?_⟩
  · rcases _mip with _ | k
    · rw [getD_set_eq _ _ _ (by simp; omega), getD_set_eq _ _ _ (by simp; omega)]
      omega
    · rw [getD_set_ne _ _ _ _ (by omega), getD_set_ne _ _ _ _ (by omega),
        getD_replicate_zero]
      omega
  · rw [Nat.mul_one, u32_of_lt hlt]

/-! ## The claims -/

/-- Claim C1 (evaluation of the code): whatever the environment, after
`Create2d(256, 256, RGBA, uint8, 9)` the call `getRawImageSize(1)` returns 0, where the
claim says 128 * 128 * 4 = 65536.  The image keeps the nine requested levels and its
buffer is allocated; only level 0 has been planned (size 262144). -/
theorem Create2d_256_level1_size :
    (∀ env : Env, getRawImageSize (Create2d env 256 256 .kRGBA .kUint8 9 .kNone) 1 = 0) ∧
    (Create2d Env.sample 256 256 .kRGBA .kUint8 9 .kNone).m_data = some 4096 ∧
    (Create2d Env.sample 256 256 .kRGBA .kUint8 9 .kNone).m_mipmapCount = 9 ∧
    getRawImageSize (Create2d Env.sample 256 256 .kRGBA .kUint8 9 .kNone) 0 = 262144 ∧
    128 * 128 * (GetDataTypeSize .kUint8 * GetComponentCount .kRGBA) = 65536 := by
  refine ⟨?_, rfl, rfl, ?_, by decide⟩
  · intro env
    unfold getRawImageSize
    split
    · rfl
    · rw [Create2d_mipSizes, getD_set_ne _ _ _ _ (by decide), getD_replicate_zero]
  · unfold getRawImageSize
    rw [Create2d_mipSizes, Create2d_sample_data, Create2d_mipmapCount]
    decide

/-- Claim C2: `ConvertCopyImage` with component counts in 1..4 and `n = size / srcCount`
texels writes, for every texel `i < n` and component `c < dstCount`,
`dst[i*dstCount + c] = Convert(src[i*srcCount + c])` when `c < srcCount` and the zero of
the destination type otherwise; source components with index `≥ dstCount` are read by
no written element. -/
theorem ConvertCopyImage_texel {α β : Type} (conv : α → β) (zero : β) (src : Arr α)
    (dst : Arr β) (srcCount dstCount size : Nat)
    (hs1 : 1 ≤ srcCount) (hs4 : srcCount ≤ 4) (hd1 : 1 ≤ dstCount) (hd4 : dstCount ≤ 4)
    (i c : Nat) (hi : i < size / srcCount) (hc : c < dstCount) :
    ConvertCopyImage conv zero src Arr.write dst srcCount dstCount size (i * dstCount + c) =
      if c < srcCount then conv (src (i * srcCount + c)) else zero := by
  unfold ConvertCopyImage
  rw [ConvertCopyImage_loop_Arr conv zero src srcCount dstCount _ hs1 (by omega) hd1 (by omega)
    _ 0 0 0 dst _ rfl]
  have hlt : i * dstCount + c < size / srcCount * dstCount := by
    calc i * dstCount + c < i * dstCount + dstCount := by omega
      _ = (i + 1) * dstCount := by rw [Nat.add_mul, Nat.one_mul]
      _ ≤ size / srcCount * dstCount := Nat.mul_le_mul_right _ hi
  rw [if_pos (by simpa using hlt)]
  have e1 : (i * dstCount + c) % dstCount = c := by
    rw [Nat.mul_comm, Nat.mul_add_mod, Nat.mod_eq_of_lt hc]
  have e2 : (i * dstCount + c) / dstCount = i := by
    rw [Nat.mul_comm, Nat.mul_add_div (by omega), Nat.div_eq_of_lt hc, Nat.add_zero]
  simp only [Nat.sub_zero, Nat.zero_add, e1, e2]

theorem ConvertCopyImage_texel_witness :
    (1 ≤ 1 ∧ 1 ≤ 4 ∧ 1 ≤ 4 ∧ 4 ≤ 4 ∧ 2 < 3 / 1 ∧ 1 < 4) ∧
    ConvertCopyImage (Convert Env.sample .kUint8 .kUint16) 0 (fun k => k + 1) Arr.write
      (fun _ => 7) 1 4 3 (2 * 4 + 1) = 0 :=
  ⟨by decide,
    ConvertCopyImage_texel (Convert Env.sample .kUint8 .kUint16) 0 (fun k => k + 1)
      (fun _ => 7) 1 4 3 (by decide) (by decide) (by decide) (by decide) 2 1
      (by decide) (by decide)⟩

/-- Claim C3 (evaluation of the code): on the 1 x 1 RGBA uint8 image, whose only slice is
the 4 bytes at 4096 .. 4099, `setRawImage` with an R uint8 source converts
`m_arrayLayerSize / srcCount = 4` texels, not 1, and overwrites the byte at 4100
outside the slice (0 before the call, 255 after). -/
theorem setRawImage_convert_overruns_slice :
    getRawImageSize (Create2d Env.sample 1 1 .kRGBA .kUint8 1 .kNone) 0 = 4 ∧
    getRawImage (Create2d Env.sample 1 1 .kRGBA .kUint8 1 .kNone) 0 0 = some 4096 ∧
    (Create2d Env.sample 1 1 .kRGBA .kUint8 1 .kNone).m_texelSize = 4 ∧
    (Create2d Env.sample 1 1 .kRGBA .kUint8 1 .kNone).m_arrayLayerSize /
      GetComponentCount .kR = 4 ∧
    ∃ mem, setRawImage Env.sample (Create2d Env.sample 1 1 .kRGBA .kUint8 1 .kNone)
        (fun _ => 0) 0 0 (fun _ => 255) .kR .kUint8 .kNone = some mem ∧ mem 4100 = 255 := by
  have himg : Create2d Env.sample 1 1 .kRGBA .kUint8 1 .kNone =
      { m_type := .k2d, m_width := 1, m_height := 1, m_depth := 1, m_arrayCount := 1,
        m_mipmapCount := 1, m_compression := .kNone, m_layout := .kRGBA,
        m_dataType := .kUint8, m_errorState := .kOk, m_data := some 4096,
        m_mipOffsets := List.replicate 16 0,
        m_mipSizes := 4 :: List.replicate 15 0, m_arrayLayerSize := 4, m_texelSize := 4 } := by
    rw [Create2d, alloc_eq]
    rfl
  rw [himg]
  refine ⟨by decide, by decide, rfl, by decide, ?_⟩
  have hg : ∀ img : Image, getRawImage img 0 0 = some 4096 → img.m_layout = .kRGBA →
      img.m_dataType = .kUint8 → img.m_arrayLayerSize = 4 →
      ∃ mem, setRawImage Env.sample img (fun _ => 0) 0 0 (fun _ => 255) .kR .kUint8 .kNone
        = some mem ∧ mem 4100 = 255 := by
    intro img h1 h2 h3 h4
    simp only [setRawImage, h1, h2, h3, h4]
    rw [if_neg (fun h => absurd h.1 (by decide)), if_pos (by decide)]
    refine ⟨_, rfl, ?_⟩
    simp only [ConvertCopyImage, GetComponentCount]
    rw [show (4 / 1 : Nat) = 4 from rfl]
    rw [loop_unfold_pos _ _ _ _ _ _ _ _ _ _ _ (by decide),
      loop_unfold_pos _ _ _ _ _ _ _ _ _ _ _ (by decide),
      loop_unfold_pos _ _ _ _ _ _ _ _ _ _ _ (by decide),
      loop_unfold_pos _ _ _ _ _ _ _ _ _ _ _ (by decide),
      loop_unfold_neg _ _ _ _ _ _ _ _ _ _ _ (by decide)]
    rw [ConvertCopy_eq _ _ _ _ _ _ _ _ _ (by decide) (by decide) (by decide) (by decide),
      ConvertCopy_eq _ _ _ _ _ _ _ _ _ (by decide) (by decide) (by decide) (by decide),
      ConvertCopy_eq _ _ _ _ _ _ _ _ _ (by decide) (by decide) (by decide) (by decide),
      ConvertCopy_eq _ _ _ _ _ _ _ _ _ (by decide) (by decide) (by decide) (by decide)]
    decide
  exact hg _ (by decide) rfl rfl rfl

/-- Claim C4: for every width and height, every layout and data type, `Create2d` with
one mip level followed by `getRawImageSize(0)` returns
`width * height * GetDataTypeSize(dataType) * GetComponentCount(layout)`, provided the
allocation succeeds and the product does not overflow 32 bits (the mip tables have at
least one entry). -/
theorem Create2d_getRawImageSize_level0 (env : Env) (w h : Nat) (l : Layout) (t : DataType)
    (c : CompressionType) (hk : 1 ≤ env.kMaxMipmapCount)
    (halloc : (Create2d env w h l t 1 c).m_data ≠ none)
    (hno : w * h * GetDataTypeSize t * GetComponentCount l < 2 ^ 32) :
    getRawImageSize (Create2d env w h l t 1 c) 0 =
      w * h * GetDataTypeSize t * GetComponentCount l := by
  unfold getRawImageSize
  rw [if_neg]
  · rw [Create2d_mipSizes, getD_set_eq _ _ _ (by simpa using hk)]
    have e : GetDataTypeSize t * GetComponentCount l * w * h
        = w * h * GetDataTypeSize t * GetComponentCount l := by ring
    simp only [u32, Nat.mul_one, Nat.mod_mod, Nat.mod_mul_mod, e]
    exact Nat.mod_eq_of_lt hno
  · rintro (h1 | h1)
    · exact halloc h1
    · rw [Create2d_mipmapCount] at h1
      omega

theorem Create2d_getRawImageSize_level0_witness :
    (1 ≤ Env.sample.kMaxMipmapCount ∧
      (Create2d Env.sample 4 4 .kRGBA .kUint8 1 .kNone).m_data ≠ none ∧
      4 * 4 * GetDataTypeSize .kUint8 * GetComponentCount .kRGBA < 2 ^ 32) ∧
    getRawImageSize (Create2d Env.sample 4 4 .kRGBA .kUint8 1 .kNone) 0 = 64 :=
  ⟨⟨by decide, by decide, by decide⟩,
    Create2d_getRawImageSize_level0 Env.sample 4 4 .kRGBA .kUint8 .kNone
      (by decide) (by decide) (by decide)⟩

/-- Claim C5 (evaluation of the code): `GetMaxMipmapSize` never returns more than 1,
because of the clamp `PLR_MIN(mipCount, 1u)`; in particular
`GetMaxMipmapSize(256, 256, 1)` is 1 where the claim says 9. -/
theorem GetMaxMipmapSize_at_most_one :
    (∀ (env : Env) (w h d : Nat), GetMaxMipmapSize env w h d ≤ 1) ∧
    GetMaxMipmapSize Env.sample 256 256 1 = 1 ∧
    ilog2 (max 256 (max 256 1)) + 1 = 9 :=
  ⟨GetMaxMipmapSize_le_one, by decide, by decide⟩

/-- Claim C6: the planning loop of `alloc` accumulates the offsets.  For every limit
`lim` it is run with, and the `k = max lim 1` levels it then produces, `mipOffsets[0] = 0`,
`mipOffsets[i+1] = mipOffsets[i] + mipSizes[i]` whenever `i + 1 < k`, and
`arrayLayerSize` is the sum of `mipSizes[0..k-1]`, provided the tables have room for `k`
entries and the sum of the level sizes does not overflow 32 bits.  `alloc` stores the
tables and the layer size of this loop, run with
`lim = PLR_MIN(m_mipmapCount, GetMaxMipmapSize(w, h, d))` from a layer size of 0, so the
same holds after `alloc` for the levels it planned. -/
theorem alloc_offsets_accumulate :
    (∀ (texelSize lim w h d : Nat) (offs sizes : List Nat),
      offs.length = sizes.length → max lim 1 ≤ offs.length →
      layerBytes texelSize w h d (max lim 1) < 2 ^ 32 →
      (allocLoop texelSize lim 0 w h d ⟨offs, sizes, 0⟩).mipOffsets.getD 0 0 = 0 ∧
      (∀ i, i + 1 < max lim 1 →
        (allocLoop texelSize lim 0 w h d ⟨offs, sizes, 0⟩).mipOffsets.getD (i + 1) 0 =
          (allocLoop texelSize lim 0 w h d ⟨offs, sizes, 0⟩).mipOffsets.getD i 0 +
            (allocLoop texelSize lim 0 w h d ⟨offs, sizes, 0⟩).mipSizes.getD i 0) ∧
      (allocLoop texelSize lim 0 w h d ⟨offs, sizes, 0⟩).arrayLayerSize =
        ((allocLoop texelSize lim 0 w h d ⟨offs, sizes, 0⟩).mipSizes.take (max lim 1)).sum) ∧
    (∀ (env : Env) (img : Image),
      (alloc env img).m_mipOffsets =
        (allocLoop (GetDataTypeSize img.m_dataType * GetComponentCount img.m_layout)
          (PLR_MIN img.m_mipmapCount
            (GetMaxMipmapSize env img.m_width img.m_height img.m_depth))
          0 img.m_width img.m_height img.m_depth
          ⟨img.m_mipOffsets, img.m_mipSizes, 0⟩).mipOffsets ∧
      (alloc env img).m_mipSizes =
        (allocLoop (GetDataTypeSize img.m_dataType * GetComponentCount img.m_layout)
          (PLR_MIN img.m_mipmapCount
            (GetMaxMipmapSize env img.m_width img.m_height img.m_depth))
          0 img.m_width img.m_height img.m_depth
          ⟨img.m_mipOffsets, img.m_mipSizes, 0⟩).mipSizes ∧
      (alloc env img).m_arrayLayerSize =
        (allocLoop (GetDataTypeSize img.m_dataType * GetComponentCount img.m_layout)
          (PLR_MIN img.m_mipmapCount
            (GetMaxMipmapSize env img.m_width img.m_height img.m_depth))
          0 img.m_width img.m_height img.m_depth
          ⟨img.m_mipOffsets, img.m_mipSizes, 0⟩).arrayLayerSize) ∧
    (∀ (env : Env) (img : Image),
      img.m_mipOffsets.length = env.kMaxMipmapCount →
      img.m_mipSizes.length = env.kMaxMipmapCount →
      1 ≤ env.kMaxMipmapCount →
      layerBytes (GetDataTypeSize img.m_dataType * GetComponentCount img.m_layout)
        img.m_width img.m_height img.m_depth (plannedLevels env img) < 2 ^ 32 →
      (alloc env img).m_mipOffsets.getD 0 0 = 0 ∧
      (∀ i, i + 1 < plannedLevels env img →
        (alloc env img).m_mipOffsets.getD (i + 1) 0 =
          (alloc env img).m_mipOffsets.getD i 0 + (alloc env img).m_mipSizes.getD i 0) ∧
      (alloc env img).m_arrayLayerSize =
        ((alloc env img).m_mipSizes.take (plannedLevels env img)).sum) := by
  refine ⟨allocLoop_accumulate, alloc_plan_eq, ?_⟩
  intro env img hlo hls hk hno
  have hkL := plannedLevels_le_kMax env img hk
  obtain ⟨hO, hS, hA⟩ := alloc_plan_eq env img
  rw [hO, hS, hA]
  exact allocLoop_accumulate _ _ _ _ _ _ _ (by rw [hlo, hls]) (by rw [hlo]; exact hkL) hno

theorem alloc_offsets_accumulate_witness :
    ((List.replicate 16 0).length = (List.replicate 16 0).length ∧
      max 3 1 ≤ (List.replicate 16 0).length ∧ layerBytes 4 4 4 1 (max 3 1) < 2 ^ 32) ∧
    (samplePlan.mipOffsets.getD 0 0 = 0 ∧
      (∀ i, i + 1 < max 3 1 →
        samplePlan.mipOffsets.getD (i + 1) 0 =
          samplePlan.mipOffsets.getD i 0 + samplePlan.mipSizes.getD i 0) ∧
      samplePlan.arrayLayerSize = (samplePlan.mipSizes.take (max 3 1)).sum) ∧
    samplePlan.mipOffsets.getD 1 0 = 64 ∧ samplePlan.mipOffsets.getD 2 0 = 80 ∧
    (alloc Env.sample sampleHeader).m_arrayLayerSize =
      ((alloc Env.sample sampleHeader).m_mipSizes.take
        (plannedLevels Env.sample sampleHeader)).sum := by
  have h : samplePlan.mipOffsets.getD 0 0 = 0 ∧
      (∀ i, i + 1 < max 3 1 →
        samplePlan.mipOffsets.getD (i + 1) 0 =
          samplePlan.mipOffsets.getD i 0 + samplePlan.mipSizes.getD i 0) ∧
      samplePlan.arrayLayerSize = (samplePlan.mipSizes.take (max 3 1)).sum :=
    alloc_offsets_accumulate.1 4 3 4 4 1 (List.replicate 16 0) (List.replicate 16 0)
      (by decide) (by decide) (by decide)
  have s := samplePlan_level_sizes
  have h1 : samplePlan.mipOffsets.getD 1 0 = 64 := by
    have e : samplePlan.mipOffsets.getD 1 0 =
        samplePlan.mipOffsets.getD 0 0 + samplePlan.mipSizes.getD 0 0 := h.2.1 0 (by decide)
    rw [e, h.1, s.1]
  have h2 : samplePlan.mipOffsets.getD 2 0 = 80 := by
    have e : samplePlan.mipOffsets.getD 2 0 =
        samplePlan.mipOffsets.getD 1 0 + samplePlan.mipSizes.getD 1 0 := h.2.1 1 (by decide)
    rw [e, h1, s.2.1]
  exact ⟨⟨by decide, by decide, by decide⟩, h, h1, h2,
    (alloc_offsets_accumulate.2.2 Env.sample sampleHeader (by decide) (by decide)
      (by decide) (by decide)).2.2⟩

/-- Claim C7 (evaluation of the code): the image made by `Create2d(4, 4, RGBA, uint8, 2)`
stores the mip count 2, yet level 0 occupies the bytes 0 .. 63 and level 1 has offset
0: `mipOffsets[0] + mipSizes[0] = 64 > mipOffsets[1] = 0`, and `mipOffsets[0]` is not
below `mipOffsets[1]`. -/
theorem Create2d_mip_slices_overlap :
    (Create2d Env.sample 4 4 .kRGBA .kUint8 2 .kNone).m_mipmapCount = 2 ∧
    (Create2d Env.sample 4 4 .kRGBA .kUint8 2 .kNone).m_mipOffsets.getD 0 0 +
      (Create2d Env.sample 4 4 .kRGBA .kUint8 2 .kNone).m_mipSizes.getD 0 0 = 64 ∧
    (Create2d Env.sample 4 4 .kRGBA .kUint8 2 .kNone).m_mipOffsets.getD 0 0 = 0 ∧
    (Create2d Env.sample 4 4 .kRGBA .kUint8 2 .kNone).m_mipOffsets.getD 1 0 = 0 ∧
    ¬ ((Create2d Env.sample 4 4 .kRGBA .kUint8 2 .kNone).m_mipOffsets.getD 0 0 +
      (Create2d Env.sample 4 4 .kRGBA .kUint8 2 .kNone).m_mipSizes.getD 0 0 ≤
        (Create2d Env.sample 4 4 .kRGBA .kUint8 2 .kNone).m_mipOffsets.getD 1 0) := by
  rw [Create2d_mipSizes, Create2d_mipOffsets]
  exact ⟨rfl, by decide, by decide, by decide, by decide⟩

/-- Claim C8: for every allocated image and in-range `(array, mip)`, `setRawImage` called
with the image's own layout, data type and compression copies exactly
`getRawImageSize(mip)` bytes: afterwards the bytes at `getRawImage(array, mip)` are the
first `getRawImageSize(mip)` bytes of the source and every other byte is unchanged. -/
theorem setRawImage_same_format_copies_slice (env : Env) (img : Image) (mem : Mem)
    (_array _mip : Nat) (_src : Nat → Nat)
    (hdata : img.m_data ≠ none) (ha : _array < img.m_arrayCount)
    (hm : _mip < img.m_mipmapCount) :
    ∃ p mem1, getRawImage img _array _mip = some p ∧
      setRawImage env img mem _array _mip _src img.m_layout img.m_dataType img.m_compression
        = some mem1 ∧
      (∀ k, k < getRawImageSize img _mip → mem1 (p + k) = _src k) ∧
      (∀ a, a < p ∨ p + getRawImageSize img _mip ≤ a → mem1 a = mem a) := by
  obtain ⟨data, hd⟩ : ∃ data, img.m_data = some data := by
    cases h : img.m_data with
    | none => exact absurd h hdata
    | some data => exact ⟨data, rfl⟩
  have hget : getRawImage img _array _mip = some (data +
      u32 (u32 (_array * img.m_arrayLayerSize) + img.m_mipOffsets.getD _mip 0)) := by
    unfold getRawImage
    rw [hd]
    simp only
    rw [if_neg (by omega)]
  refine ⟨data + u32 (u32 (_array * img.m_arrayLayerSize) + img.m_mipOffsets.getD _mip 0),
    memcpy mem (data + u32 (u32 (_array * img.m_arrayLayerSize) + img.m_mipOffsets.getD _mip 0))
      _src (getRawImageSize img _mip), hget, ?_, ?_, ?_⟩
  · unfold setRawImage
    rw [if_pos ⟨rfl, rfl, rfl⟩, hget]
  · intro k hk
    unfold memcpy
    rw [if_pos (by omega)]
    congr 1; omega
  · intro a h
    unfold memcpy
    rw [if_neg (by omega)]

theorem setRawImage_same_format_copies_slice_witness :
    (sampleArray.m_data ≠ none ∧ 1 < sampleArray.m_arrayCount ∧
      1 < sampleArray.m_mipmapCount) ∧
    ∃ p mem1, getRawImage sampleArray 1 1 = some p ∧
      setRawImage Env.sample sampleArray (fun _ => 0) 1 1 (fun k => k + 1)
        sampleArray.m_layout sampleArray.m_dataType sampleArray.m_compression = some mem1 ∧
      (∀ k, k < getRawImageSize sampleArray 1 → mem1 (p + k) = (fun k => k + 1) k) ∧
      (∀ a, a < p ∨ p + getRawImageSize sampleArray 1 ≤ a → mem1 a = (fun _ => 0) a) :=
  ⟨⟨by decide, by decide, by decide⟩,
    setRawImage_same_format_copies_slice Env.sample sampleArray (fun _ => 0) 1 1
      (fun k => k + 1) (by decide) (by decide) (by decide)⟩

/-- Claim C9: `getRawImage(array, mip)` returns null exactly when the buffer is null or
`array >= arrayCount` or `mip >= mipmapCount`; otherwise it returns the buffer address
plus `array * arrayLayerSize + mipOffsets[mip]` (this offset fitting in 32 bits).
`getRawImageSize(mip)` returns 0 when the buffer is null or `mip >= mipmapCount` and
`mipSizes[mip]` otherwise. -/
theorem getRawImage_spec (img : Image) (_array _mip : Nat) :
    (getRawImage img _array _mip = none ↔
      img.m_data = none ∨ _array ≥ img.m_arrayCount ∨ _mip ≥ img.m_mipmapCount) ∧
    (∀ data, img.m_data = some data → _array < img.m_arrayCount →
      _mip < img.m_mipmapCount →
      _array * img.m_arrayLayerSize + img.m_mipOffsets.getD _mip 0 < 2 ^ 32 →
      getRawImage img _array _mip =
        some (data + (_array * img.m_arrayLayerSize + img.m_mipOffsets.getD _mip 0))) ∧
    (img.m_data = none ∨ _mip ≥ img.m_mipmapCount → getRawImageSize img _mip = 0) ∧
    (img.m_data ≠ none → _mip < img.m_mipmapCount →
      getRawImageSize img _mip = img.m_mipSizes.getD _mip 0) := by
  refine ⟨?_, ?_, ?_, ?_⟩
  · unfold getRawImage
    cases hd : img.m_data with
    | none => simp
    | some data =>
      simp only
      by_cases hc : _array ≥ img.m_arrayCount ∨ _mip ≥ img.m_mipmapCount
      · rw [if_pos hc]; simp [hc]
      · rw [if_neg hc]; simp [hc]
  · intro data hd ha hm hno
    unfold getRawImage
    rw [hd]
    simp only
    rw [if_neg (by omega)]
    have h1 : _array * img.m_arrayLayerSize < 2 ^ 32 := by omega
    rw [u32_of_lt h1, u32_of_lt hno]
  · intro h
    unfold getRawImageSize
    rw [if_pos h]
  · intro h1 h2
    unfold getRawImageSize
    rw [if_neg]
    rintro (h | h)
    · exact h1 h
    · omega

theorem getRawImage_spec_witness :
    (sampleArray.m_data = some 4096 ∧ 1 < sampleArray.m_arrayCount ∧
      1 < sampleArray.m_mipmapCount ∧
      1 * sampleArray.m_arrayLayerSize + sampleArray.m_mipOffsets.getD 1 0 < 2 ^ 32) ∧
    getRawImage sampleArray 1 1 = some (4096 + (1 * 80 + 64)) ∧
    getRawImageSize sampleArray 1 = 16 ∧
    getRawImageSize sampleArray 2 = 0 :=
  ⟨⟨rfl, by decide, by decide, by decide⟩,
    (getRawImage_spec sampleArray 1 1).2.1 4096 rfl (by decide) (by decide) (by decide),
    (getRawImage_spec sampleArray 1 1).2.2.2 (by decide) (by decide),
    (getRawImage_spec sampleArray 1 2).2.2.1 (Or.inr (by decide))⟩

/-- Claim C10 (counterexample): at the source maximum the narrowing conversions do not
return the quotient: `Convert<uint16,uint8>(65535)` is 1 (the quotient is 257),
`Convert<uint32,uint8>(4294967295)` is 1 (quotient 16843009) and
`Convert<uint32,uint16>(4294967295)` is 1 (quotient 65537). -/
theorem Convert_narrowing_not_quotient :
    Convert Env.sample .kUint16 .kUint8 65535 ≠ 65535 / 255 ∧
    Convert Env.sample .kUint32 .kUint8 4294967295 ≠ 4294967295 / 255 ∧
    Convert Env.sample .kUint32 .kUint16 4294967295 ≠ 4294967295 / 65535 := by
  decide

/-- Claim C10 (amended): whenever the quotient fits the destination type, the narrowing
unsigned conversions return the truncated integer quotient: for `v < 65280`,
`Convert<uint16,uint8>(v)` and `Convert<uint32,uint8>(v)` are `floor(v / 255)`; for
`v < 4294901760`, `Convert<uint32,uint16>(v)` is `floor(v / 65535)`. -/
theorem Convert_narrowing_in_range (env : Env) (v : Nat) :
    (v < 65280 → Convert env .kUint16 .kUint8 v = v / 255 ∧
      Convert env .kUint32 .kUint8 v = v / 255) ∧
    (v < 4294901760 → Convert env .kUint32 .kUint16 v = v / 65535) := by
  simp only [Convert, UINT8_MAX, UINT16_MAX]
  constructor
  · intro hv
    constructor <;> omega
  · intro hv
    omega

theorem Convert_narrowing_in_range_witness :
    ((65279 < 65280 ∧ 4294901759 < 4294901760) ∧
    (Convert Env.sample .kUint16 .kUint8 65279 = 65279 / 255 ∧
      Convert Env.sample .kUint32 .kUint8 65279 = 65279 / 255)) ∧
    Convert Env.sample .kUint32 .kUint16 4294901759 = 4294901759 / 65535 :=
  ⟨⟨⟨by decide, by decide⟩, (Convert_narrowing_in_range Env.sample 65279).1 (by decide)⟩,
    (Convert_narrowing_in_range Env.sample 4294901759).2 (by decide)⟩

/-- Claim C11: the widening unsigned conversions multiply by the integer quotient of the
type maxima without wrapping: `Convert<uint8,uint16>(v) = v * 257` and
`Convert<uint8,uint32>(v) = v * 16843009` for every uint8 `v`,
`Convert<uint16,uint32>(v) = v * 65537` for every uint16 `v`; 0 maps to 0 and the source
maximum to the destination maximum. -/
theorem Convert_widening (env : Env) (v : Nat) :
    (v < 2 ^ 8 → Convert env .kUint8 .kUint16 v = v * 257 ∧
      Convert env .kUint8 .kUint32 v = v * 16843009) ∧
    (v < 2 ^ 16 → Convert env .kUint16 .kUint32 v = v * 65537) ∧
    (Convert env .kUint8 .kUint16 0 = 0 ∧ Convert env .kUint8 .kUint32 0 = 0 ∧
      Convert env .kUint16 .kUint32 0 = 0) ∧
    (Convert env .kUint8 .kUint16 255 = 65535 ∧ Convert env .kUint8 .kUint32 255 = 4294967295 ∧
      Convert env .kUint16 .kUint32 65535 = 4294967295) := by
  refine ⟨?_, ?_, ⟨rfl, rfl, rfl⟩, ⟨rfl, rfl, rfl⟩⟩
  · intro hv
    simp only [Convert, UINT8_MAX, UINT16_MAX, UINT32_MAX]
    norm_num at hv ⊢
    constructor <;> omega
  · intro hv
    simp only [Convert, UINT16_MAX, UINT32_MAX]
    norm_num at hv ⊢
    omega

theorem Convert_widening_witness :
    ((200 < 2 ^ 8 ∧ 40000 < 2 ^ 16) ∧
    (Convert Env.sample .kUint8 .kUint16 200 = 200 * 257 ∧
      Convert Env.sample .kUint8 .kUint32 200 = 200 * 16843009)) ∧
    Convert Env.sample .kUint16 .kUint32 40000 = 40000 * 65537 :=
  ⟨⟨⟨by decide, by decide⟩, (Convert_widening Env.sample 200).1 (by decide)⟩,
    (Convert_widening Env.sample 40000).2.1 (by decide)⟩

/-- Claim C12 (evaluation of the code): the round trips through a wider type are not
within one unit: uint8 255 comes back from uint16 as 1, uint8 1 comes back from uint32 as
3, and uint16 65535 comes back from uint32 as 1 (the narrowing conversions divide by the
destination maximum where the widening ones multiply by the quotient of the maxima). -/
theorem Convert_round_trip_values :
    Convert Env.sample .kUint16 .kUint8 (Convert Env.sample .kUint8 .kUint16 255) = 1 ∧
    Convert Env.sample .kUint32 .kUint8 (Convert Env.sample .kUint8 .kUint32 1) = 3 ∧
    Convert Env.sample .kUint32 .kUint16 (Convert Env.sample .kUint16 .kUint32 65535) = 1 := by
  decide

/-- Claim C13: `Convert<T,T>(v) = v` for `T` among uint8, uint16, uint32 and float32, and
`ConvertCopyImage` with the same source and destination type and equal component counts
copies the first `n * count` elements unchanged (`n = size / count`). -/
theorem Convert_same_type_identity (env : Env) (v : Nat) (t : DataType)
    (ht : t = .kUint8 ∨ t = .kUint16 ∨ t = .kUint32 ∨ t = .kFloat32) :
    Convert env t t v = v ∧
    ∀ (src dst : Arr Nat) (count size j : Nat), 1 ≤ count → count ≤ 4 →
      j < size / count * count →
      ConvertCopyImage (Convert env t t) 0 src Arr.write dst count count size j = src j := by
  have hid : ∀ x, Convert env t t x = x := by
    intro x
    rcases ht with rfl | rfl | rfl | rfl <;> rfl
  refine ⟨hid v, ?_⟩
  intro src dst count size j h1 h4 hj
  unfold ConvertCopyImage
  rw [ConvertCopyImage_loop_Arr (Convert env t t) 0 src count count _ h1 (by omega) h1
    (by omega) _ 0 0 0 dst j rfl]
  rw [if_pos (by simpa using hj)]
  simp only [Nat.sub_zero, Nat.zero_add]
  rw [if_pos (Nat.mod_lt _ (by omega)), hid, Nat.div_add_mod']

theorem Convert_same_type_identity_witness :
    ((DataType.kFloat32 = .kUint8 ∨ DataType.kFloat32 = .kUint16 ∨
        DataType.kFloat32 = .kUint32 ∨ DataType.kFloat32 = .kFloat32) ∧
      1 ≤ 3 ∧ 3 ≤ 4 ∧ 5 < 7 / 3 * 3) ∧
    Convert Env.sample .kFloat32 .kFloat32 1065353216 = 1065353216 ∧
    ConvertCopyImage (Convert Env.sample .kFloat32 .kFloat32) 0 (fun k => k + 10) Arr.write
      (fun _ => 0) 3 3 7 5 = 15 :=
  ⟨⟨by decide, by decide, by decide, by decide⟩,
    (Convert_same_type_identity Env.sample 1065353216 .kFloat32 (by decide)).1,
    (Convert_same_type_identity Env.sample 0 .kFloat32 (by decide)).2 (fun k => k + 10)
      (fun _ => 0) 3 7 5 (by decide) (by decide) (by decide)⟩

/-- Claim C14 (evaluation of the code): `GuessFormat` accepts extensions that are not
equal to `.dds`, `.png` or `.tga`: the longer `.ddsx`, the shorter `.d` and the bare `.`
give Dds, the shorter `.p` gives Png and `.t` gives Tga, because `strcmp_ignore_case`
returns 0 as soon as either string ends. -/
theorem GuessFormat_accepts_unequal_extensions :
    GuessFormat (cstr "foo.ddsx") = .kDds ∧
    GuessFormat (cstr "foo.d") = .kDds ∧
    GuessFormat (cstr "foo.") = .kDds ∧
    GuessFormat (cstr "foo.p") = .kPng ∧
    GuessFormat (cstr "foo.t") = .kTga ∧
    strcmp_ignore_case (cstr ".ddsx") (cstr ".dds") = 0 := by
  decide

/-- Claim C15: `GuessFormat` is case-insensitive: when `q` is obtained from `p` by
changing the case of any ASCII letters, `GuessFormat(p) = GuessFormat(q)`. -/
theorem GuessFormat_caseVariant (p q : CStr) (h : CaseVariant p q) :
    GuessFormat p = GuessFormat q := by
  unfold GuessFormat
  have hd : '.'.toNat = 46 := rfl
  rw [hd]
  rcases strrchr_caseVariant h with ⟨h1, h2⟩ | ⟨e1, e2, h1, h2, h3⟩
  · rw [h1, h2]
  · rw [h1, h2]
    simp only [strcmp_caseVariant h3]

theorem GuessFormat_caseVariant_witness :
    CaseVariant (cstr "foo.PNG") (cstr "foo.png") ∧
    GuessFormat (cstr "foo.PNG") = GuessFormat (cstr "foo.png") ∧
    GuessFormat (cstr "foo.png") = .kPng :=
  ⟨by simp [CaseVariant, cstr, caseFlip],
    GuessFormat_caseVariant (cstr "foo.PNG") (cstr "foo.png")
      (by simp [CaseVariant, cstr, caseFlip]),
    by decide⟩

/-- Claim C16 (counterexample): a default-constructed header has no compression and the
invalid data type, not uint8, and `validateFileFormat` accepts it for Png and for Tga. -/
theorem validateFileFormat_accepts_invalid_dataType :
    sampleBlank.m_compression = .kNone ∧ sampleBlank.m_dataType = .kInvalid ∧
    ¬ (validateFileFormat sampleBlank .kPng = true ↔
      (sampleBlank.m_compression = .kNone ∧ sampleBlank.m_dataType = .kUint8)) ∧
    ¬ (validateFileFormat sampleBlank .kTga = true ↔
      (sampleBlank.m_compression = .kNone ∧ sampleBlank.m_dataType = .kUint8)) := by
  decide

/-- Claim C16 (amended): `validateFileFormat(Png)` and `validateFileFormat(Tga)` return
true exactly when the compression type is none and the data type is uint8 or invalid:
every float, signed, 16-bit or 32-bit data type and every compressed image is rejected,
the invalid data type is not tested.  A float32 RGBA image is rejected for both targets,
a uint8 RGB image is accepted for both. -/
theorem validateFileFormat_png_tga (img : Image) :
    (validateFileFormat img .kPng = true ↔
      img.m_compression = .kNone ∧ (img.m_dataType = .kUint8 ∨ img.m_dataType = .kInvalid)) ∧
    (validateFileFormat img .kTga = true ↔
      img.m_compression = .kNone ∧ (img.m_dataType = .kUint8 ∨ img.m_dataType = .kInvalid)) ∧
    validateFileFormat (sampleOf .k2d .kRGBA .kFloat32) .kPng = false ∧
    validateFileFormat (sampleOf .k2d .kRGBA .kFloat32) .kTga = false ∧
    validateFileFormat (sampleOf .k2d .kRGB .kUint8) .kPng = true ∧
    validateFileFormat (sampleOf .k2d .kRGB .kUint8) .kTga = true := by
  refine ⟨?_, ?_, by decide, by decide, by decide, by decide⟩
  · rw [validateFileFormat_png_eq_caseTga]
    exact caseTga_eq_true_iff img
  · exact caseTga_eq_true_iff img

/-- Claim C17: `Save` never writes when the format cannot be resolved or validated: if
the hint is Invalid and `GuessFormat(path)` is Invalid, or if `validateFileFormat` of the
resolved format is false, `Save` returns FileFormatUnsupported and calls no writer;
whenever a writer is called, the format was resolved and validated. -/
theorem Save_no_write_when_unsupported (wr : Writers) (img : Image) (path : CStr)
    (fmt : FileFormat) :
    ((fmt = .kInvalid ∧ GuessFormat path = .kInvalid) ∨
        validateFileFormat img (resolvedFormat path fmt) = false →
      Save wr img path fmt = (.kFileFormatUnsupported, [])) ∧
    ((Save wr img path fmt).2 ≠ [] →
      resolvedFormat path fmt ≠ .kInvalid ∧
        validateFileFormat img (resolvedFormat path fmt) = true) := by
  constructor
  · intro h
    unfold Save
    by_cases h1 : fmt = .kInvalid ∧ GuessFormat path = .kInvalid
    · rw [if_pos h1]
    · rw [if_neg h1]
      rcases h with h | h
      · exact absurd h h1
      · simp only [resolvedFormat] at h
        simp only [h]
        rfl
  · intro h
    unfold Save at h
    by_cases h1 : fmt = .kInvalid ∧ GuessFormat path = .kInvalid
    · rw [if_pos h1] at h
      exact absurd rfl h
    · rw [if_neg h1] at h
      simp only [resolvedFormat]
      by_cases h2 : validateFileFormat img (if fmt = .kInvalid then GuessFormat path else fmt)
          = true
      · refine ⟨?_, h2⟩
        intro h3
        by_cases h4 : fmt = .kInvalid
        · rw [if_pos h4] at h3
          exact h1 ⟨h4, h3⟩
        · rw [if_neg h4] at h3
          exact h4 h3
      · simp only [h2] at h
        exact absurd rfl h

theorem Save_no_write_when_unsupported_witness :
    ((FileFormat.kInvalid = .kInvalid ∧ GuessFormat (cstr "foo.unknown") = .kInvalid) ∨
      validateFileFormat sampleBlank
        (resolvedFormat (cstr "foo.unknown") .kInvalid) = false) ∧
    Save Writers.sample sampleBlank (cstr "foo.unknown") .kInvalid =
      (.kFileFormatUnsupported, []) ∧
    Save Writers.sample (sampleOf .k2d .kRGBA .kFloat32) (cstr "foo.png") .kInvalid =
      (.kFileFormatUnsupported, []) :=
  ⟨Or.inl (by decide),
    (Save_no_write_when_unsupported Writers.sample sampleBlank (cstr "foo.unknown")
      .kInvalid).1 (Or.inl (by decide)),
    (Save_no_write_when_unsupported Writers.sample (sampleOf .k2d .kRGBA .kFloat32)
      (cstr "foo.png") .kInvalid).1 (Or.inr (by decide))⟩

/-- Claim C18: the fall-through from the Png case into the Tga case of
`validateFileFormat` is not observable: for every image `validateFileFormat(Png)` equals
`validateFileFormat(Tga)`, and for every format the result equals that of the version in
which the Png case ends with its own `break`. -/
theorem validateFileFormat_fallthrough_unobservable (img : Image) :
    validateFileFormat img .kPng = validateFileFormat img .kTga ∧
    ∀ fmt, validateFileFormat img fmt = validateFileFormatWithBreak img fmt := by
  refine ⟨validateFileFormat_png_eq_caseTga img, ?_⟩
  intro fmt
  cases fmt
  · rfl
  · rw [validateFileFormat_png_eq_caseTga]
    rfl
  · rfl
  · rfl

/-- Claim C19: `validateFileFormat(Dds)` returns false exactly when the image kind is the
3D-array kind, and true for every other kind, whatever the compression, data type and
layout. -/
theorem validateFileFormat_dds (img : Image) :
    (validateFileFormat img .kDds = false ↔ img.m_type = .k3dArray) ∧
    (img.m_type ≠ .k3dArray → validateFileFormat img .kDds = true) := by
  unfold validateFileFormat
  by_cases h : img.m_type = .k3dArray
  · simp [h]
  · simp [h]

theorem validateFileFormat_dds_witness :
    (sampleOf .k3d .kInvalid .kSint16).m_type ≠ .k3dArray ∧
    validateFileFormat (sampleOf .k3d .kInvalid .kSint16) .kDds = true ∧
    validateFileFormat (sampleOf .k3dArray .kRGBA .kUint8) .kDds = false :=
  ⟨by decide,
    (validateFileFormat_dds (sampleOf .k3d .kInvalid .kSint16)).2 (by decide),
    (validateFileFormat_dds (sampleOf .k3dArray .kRGBA .kUint8)).1.2 rfl⟩

/-- Claim C20 (evaluation of the code): `Create1d`, `Create2d` and `Create3d` store the
requested mip count unchanged.  After `Create2d(4, 4, RGBA, uint8, 9)` the stored count is
9, where the claim says `min(9, floor(log2(4)) + 1) = 3`, and `alloc` has planned one
level. -/
theorem Create_stores_requested_mipmapCount :
    (∀ (env : Env) (w : Nat) (l : Layout) (t : DataType) (m : Nat) (c : CompressionType),
      (Create1d env w l t m c).m_mipmapCount = m) ∧
    (∀ (env : Env) (w h : Nat) (l : Layout) (t : DataType) (m : Nat) (c : CompressionType),
      (Create2d env w h l t m c).m_mipmapCount = m) ∧
    (∀ (env : Env) (w h d : Nat) (l : Layout) (t : DataType) (m : Nat) (c : CompressionType),
      (Create3d env w h d l t m c).m_mipmapCount = m) ∧
    (Create2d Env.sample 4 4 .kRGBA .kUint8 9 .kNone).m_mipmapCount = 9 ∧
    min 9 (ilog2 (max 4 (max 4 1)) + 1) = 3 ∧
    plannedLevels Env.sample (Create2d Env.sample 4 4 .kRGBA .kUint8 9 .kNone) = 1 := by
  refine ⟨fun _ _ _ _ _ _ => rfl, fun _ _ _ _ _ _ _ => rfl, fun _ _ _ _ _ _ _ _ => rfl, rfl,
    by decide, plannedLevels_eq_one _ _⟩

/-- Claim C21: `GetDataTypeSize` returns 1 for uint8/sint8, 2 for uint16/sint16, 4 for
uint32/sint32/float32 and 0 for invalid; `GetComponentCount` returns 1, 2, 3, 4 for R,
RG, RGB, RGBA and 0 for invalid; after `alloc`, `texelSize` is
`GetDataTypeSize(dataType) * GetComponentCount(layout)`, which is positive exactly when
both the data type and the layout are valid. -/
theorem texelSize_spec :
    (GetDataTypeSize .kUint8 = 1 ∧ GetDataTypeSize .kSint8 = 1 ∧
      GetDataTypeSize .kUint16 = 2 ∧ GetDataTypeSize .kSint16 = 2 ∧
      GetDataTypeSize .kUint32 = 4 ∧ GetDataTypeSize .kSint32 = 4 ∧
      GetDataTypeSize .kFloat32 = 4 ∧ GetDataTypeSize .kInvalid = 0) ∧
    (GetComponentCount .kR = 1 ∧ GetComponentCount .kRG = 2 ∧ GetComponentCount .kRGB = 3 ∧
      GetComponentCount .kRGBA = 4 ∧ GetComponentCount .kInvalid = 0) ∧
    ∀ (env : Env) (img : Image),
      (alloc env img).m_texelSize =
        GetDataTypeSize (alloc env img).m_dataType *
          GetComponentCount (alloc env img).m_layout ∧
      (0 < (alloc env img).m_texelSize ↔
        (alloc env img).m_dataType ≠ .kInvalid ∧ (alloc env img).m_layout ≠ .kInvalid) := by
  refine ⟨⟨rfl, rfl, rfl, rfl, rfl, rfl, rfl, rfl⟩, ⟨rfl, rfl, rfl, rfl, rfl⟩, ?_⟩
  intro env img
  rw [alloc_eq]
  simp only
  rw [u32_of_lt (texel_lt _ _)]
  refine ⟨rfl, ?_⟩
  cases img.m_dataType <;> cases img.m_layout <;> simp [GetDataTypeSize, GetComponentCount]

end plr

namespace apt

theorem toSint32_of_range {x : Int} (h1 : -2 ^ 31 ≤ x) (h2 : x < 2 ^ 31) : toSint32 x = x := by
  unfold toSint32
  omega

/-- Claim C22: for every 32-bit raw generator output `r` and every sint32 pair
`min <= max` with `max - min + 1 <= 2^31 - 1`, `Rand::get<sint32>(min, max)` is
`min + floor(r * (max - min + 1) / 2^32)` and lies in the closed range `[min, max]`. -/
theorem Rand_get_sint32_range (raw : Nat) (_min _max : Int) (hr : raw < 2 ^ 32)
    (hmin : -2 ^ 31 ≤ _min) (hle : _min ≤ _max) (hmax : _max < 2 ^ 31)
    (hn : _max - _min + 1 ≤ 2 ^ 31 - 1) :
    Rand.get raw _min _max = _min + (raw * (_max - _min + 1)) / 2 ^ 32 ∧
    _min ≤ Rand.get raw _min _max ∧ Rand.get raw _min _max ≤ _max := by
  obtain ⟨N, hN⟩ : ∃ N : Nat, (N : Int) = _max - _min + 1 := ⟨(_max - _min + 1).toNat, by omega⟩
  have hN1 : 1 ≤ N := by omega
  have hN2 : N ≤ 2 ^ 31 - 1 := by omega
  have h1 : toSint32 (_max - _min) = _max - _min := toSint32_of_range (by omega) (by omega)
  have h2 : toSint32 (_max - _min + 1) = _max - _min + 1 := toSint32_of_range (by omega) (by omega)
  have h3 : toUint64 (_max - _min + 1) = N := by
    unfold toUint64
    omega
  have hprod : raw * N < 2 ^ 32 * N := Nat.mul_lt_mul_of_pos_right hr (by omega)
  have hq : raw * N / 2 ^ 32 < N := Nat.div_lt_of_lt_mul hprod
  have hp64 : raw * N < 2 ^ 64 := by
    calc raw * N < 2 ^ 32 * N := hprod
      _ ≤ 2 ^ 32 * 2 ^ 31 := Nat.mul_le_mul_left _ (by omega)
      _ < 2 ^ 64 := by norm_num
  have hget : Rand.get raw _min _max = _min + ((raw * N / 2 ^ 32 : Nat) : Int) := by
    unfold Rand.get
    simp only [h1, h2, h3]
    have hq32 : raw * N / 2 ^ 32 < 2 ^ 32 := by omega
    rw [Nat.mod_eq_of_lt hp64, Nat.mod_eq_of_lt hq32]
    have hj : toSint32 ((raw * N / 2 ^ 32 : Nat) : Int) = ((raw * N / 2 ^ 32 : Nat) : Int) :=
      toSint32_of_range (by omega) (by omega)
    rw [hj]
    have hs : toSint32 (((raw * N / 2 ^ 32 : Nat) : Int) + _min)
        = ((raw * N / 2 ^ 32 : Nat) : Int) + _min :=
      toSint32_of_range (by omega) (by omega)
    rw [hs]
    omega
  have hcast : ((raw * N / 2 ^ 32 : Nat) : Int) = (raw * (_max - _min + 1)) / 2 ^ 32 := by
    rw [← hN, Int.natCast_div, Nat.cast_mul]
    rfl
  rw [hget, ← hcast]
  omega

theorem Rand_get_sint32_range_witness :
    ((2147483648 : Nat) < 2 ^ 32 ∧ -2 ^ 31 ≤ (-10 : Int) ∧ (-10 : Int) ≤ 10 ∧
      (10 : Int) < 2 ^ 31 ∧ (10 : Int) - (-10) + 1 ≤ 2 ^ 31 - 1) ∧
    (Rand.get 2147483648 (-10) 10 =
        (-10) + ((2147483648 : Nat) * ((10 : Int) - (-10) + 1)) / 2 ^ 32 ∧
      (-10 : Int) ≤ Rand.get 2147483648 (-10) 10 ∧ Rand.get 2147483648 (-10) 10 ≤ 10) :=
  ⟨by decide,
    Rand_get_sint32_range 2147483648 (-10) 10 (by decide) (by decide) (by decide)
      (by decide) (by decide)⟩

end apt

namespace plr

open Image

/-- Claim C23: every in-range slice lies inside the owned buffer: for every image made by
`Create1d`, `Create2d` or `Create3d` with `mipmapCount <= kMaxMipmapCount` and every
`array < arrayCount`, `mip < mipmapCount`,
`array * arrayLayerSize + mipOffsets[mip] + mipSizes[mip] <= arrayLayerSize * arrayCount`,
and `arrayLayerSize * arrayCount` is the size that the buffer was allocated with. -/
theorem Create_slices_in_buffer (env : Env) (w h d : Nat) (l : Layout) (t : DataType)
    (m : Nat) (c : CompressionType) (hm : m ≤ env.kMaxMipmapCount) (img : Image)
    (himg : img = Create1d env w l t m c ∨ img = Create2d env w h l t m c ∨
      img = Create3d env w h d l t m c)
    (_array _mip : Nat) (ha : _array < img.m_arrayCount) (hmip : _mip < img.m_mipmapCount) :
    _array * img.m_arrayLayerSize + img.m_mipOffsets.getD _mip 0 + img.m_mipSizes.getD _mip 0 ≤
      img.m_arrayLayerSize * img.m_arrayCount ∧
    img.m_data = env.newChars (img.m_arrayLayerSize * img.m_arrayCount) := by
  rcases himg with rfl | rfl | rfl
  · exact alloc_slice_in_buffer env _ rfl rfl rfl hm _array _mip ha hmip
  · exact alloc_slice_in_buffer env _ rfl rfl rfl hm _array _mip ha hmip
  · exact alloc_slice_in_buffer env _ rfl rfl rfl hm _array _mip ha hmip

theorem Create_slices_in_buffer_witness :
    (9 ≤ Env.sample.kMaxMipmapCount ∧
      (sampleMips = Create1d Env.sample 256 .kRGBA .kUint8 9 .kNone ∨
        sampleMips = Create2d Env.sample 256 256 .kRGBA .kUint8 9 .kNone ∨
        sampleMips = Create3d Env.sample 256 256 1 .kRGBA .kUint8 9 .kNone) ∧
      0 < sampleMips.m_arrayCount ∧ 3 < sampleMips.m_mipmapCount) ∧
    (0 * sampleMips.m_arrayLayerSize + sampleMips.m_mipOffsets.getD 3 0 +
        sampleMips.m_mipSizes.getD 3 0 ≤
      sampleMips.m_arrayLayerSize * sampleMips.m_arrayCount ∧
    sampleMips.m_data =
      Env.sample.newChars (sampleMips.m_arrayLayerSize * sampleMips.m_arrayCount)) :=
  ⟨⟨by decide, Or.inr (Or.inl rfl), by decide, by decide⟩,
    Create_slices_in_buffer Env.sample 256 256 1 .kRGBA .kUint8 9 .kNone (by decide)
      sampleMips (Or.inr (Or.inl rfl)) 0 3 (by decide) (by decide)⟩

end plr
